import Mathlib

/-!
Verification development for the javascript-jsonapi-sdk-library repository.

The library is embedded shallowly: JavaScript values are modelled by the
inductive type `Val` (plain objects as association lists that preserve key
insertion order, with `vundef` standing for JavaScript's `undefined`), a
`Resource` instance by `RState`, and a `Collection` instance by `CState`.
Stateful methods become pure functions from the old state (plus, for
network-performing methods, the server's `Response`) to a `Request` and the
new state; a thrown JavaScript error becomes `Except.error`.  The mutual
recursion between `Resource._overwrite`, `Resource._setRelated`,
`JsonApi.new` and `JsonApi.asResource` is made total with a fuel parameter;
running out of fuel is the distinguished failure `Err.fuelOut`, never used
to model a genuine JavaScript exception.

The repository's `src/utils.js` and the newer `Collection.fromData` are
imported by the sources but their files are not present; those few
definitions are modelled from the specification (and cross-checked against
the repository's jest test-suite), and are marked `Modelled from the spec:`
in their doc comments.  Everything else is translated from
`src/resources.js` (the full version, `unnamed/part_003`),
`src/collections.js` and `src/apis.js`.
-/

namespace JApi

mutual

/-- A JavaScript value as used by the library: `null`, `undefined`, strings,
arrays, plain objects (insertion-ordered association lists), `Resource`
instances and `Collection` instances. -/
inductive Val : Type where
  | vnull : Val
  | vundef : Val
  | vstr : String → Val
  | vlist : List Val → Val
  | vobj : List (String × Val) → Val
  | vres : RState → Val
  | vcoll : CState → Val

/-- The state of a `Resource` instance: the class's `TYPE` tag, `id`,
`attributes`, `relationships`, `related`, `links` and `redirect` fields
(`src/resources.js`, `_overwrite`). -/
inductive RState : Type where
  | mk : (type : Val) → (id : Val) → (attributes : List (String × Val)) →
      (relationships : List (String × Val)) → (related : List (String × Val)) →
      (links : List (String × Val)) → (redirect : Val) → RState

/-- The state of a `Collection` instance: `_url`, `_params`, `data`,
`next` and `previous` (`src/collections.js`, constructor). -/
inductive CState : Type where
  | mk : (url : Val) → (params : Val) → (data : Val) →
      (next : Val) → (previous : Val) → CState

end

namespace RState

def type : RState → Val
  | .mk t _ _ _ _ _ _ => t

def id : RState → Val
  | .mk _ i _ _ _ _ _ => i

def attributes : RState → List (String × Val)
  | .mk _ _ a _ _ _ _ => a

def relationships : RState → List (String × Val)
  | .mk _ _ _ r _ _ _ => r

def related : RState → List (String × Val)
  | .mk _ _ _ _ r _ _ => r

def links : RState → List (String × Val)
  | .mk _ _ _ _ _ l _ => l

def redirect : RState → Val
  | .mk _ _ _ _ _ _ r => r

end RState

namespace CState

def url : CState → Val
  | .mk u _ _ _ _ => u

def params : CState → Val
  | .mk _ p _ _ _ => p

def data : CState → Val
  | .mk _ _ d _ _ => d

def next : CState → Val
  | .mk _ _ _ n _ => n

def previous : CState → Val
  | .mk _ _ _ _ p => p

end CState

/-- Keys of an association list, in insertion order. -/
def keys {α : Type} (l : List (String × α)) : List String :=
  l.map Prod.fst

/-- First-match lookup in an association list (JavaScript objects have
unique keys, so this is plain property lookup). -/
def alookup {α : Type} (l : List (String × α)) (k : String) : Option α :=
  match l with
  | [] => none
  | (k', v) :: rest => if k' = k then some v else alookup rest k

/-- JavaScript property assignment `o[k] = v`: replace in place if the key
exists, else append (insertion order is preserved). -/
def aset {α : Type} (l : List (String × α)) (k : String) (v : α) : List (String × α) :=
  match l with
  | [] => [(k, v)]
  | (k', v') :: rest => if k' = k then (k, v) :: rest else (k', v') :: aset rest k v

/-- JavaScript `delete o[k]`. -/
def adelete {α : Type} (l : List (String × α)) (k : String) : List (String × α) :=
  l.filter (fun p => p.1 ≠ k)

/-- `Object.assign(a, b)` / spread merge: entries of `a` (with values from
`b` where `b` has the key) followed by `b`'s remaining entries in order. -/
def amerge {α : Type} (a b : List (String × α)) : List (String × α) :=
  b.foldl (fun acc p => aset acc p.1 p.2) a

/-- JavaScript truthiness for the modelled values
(`null`, `undefined` and `''` are falsy; objects and arrays are truthy). -/
def truthy : Val → Bool
  | .vnull => false
  | .vundef => false
  | .vstr s => ¬ s.isEmpty
  | _ => true

/-- Property read `v.k` on a value that is known not to be
`null`/`undefined` (on which JavaScript would throw): plain objects look
the key up, `Resource` and `Collection` instances expose their fields,
anything else yields `undefined`. -/
def getOpt : Val → String → Val
  | .vobj kvs, k => (alookup kvs k).getD .vundef
  | .vres r, k =>
      if k = "id" then r.id
      else if k = "attributes" then .vobj r.attributes
      else if k = "relationships" then .vobj r.relationships
      else if k = "related" then .vobj r.related
      else if k = "links" then .vobj r.links
      else if k = "redirect" then r.redirect
      else .vundef
  | .vcoll c, k =>
      if k = "data" then c.data
      else if k = "next" then c.next
      else if k = "previous" then c.previous
      else .vundef
  | _, _ => (.vundef)

/-- String coercion as performed by JavaScript template literals for the
values that can arise here (arrays join their elements with commas,
objects print as `[object Object]`). -/
def jsToString : Val → String
  | .vnull => "null"
  | .vundef => "undefined"
  | .vstr s => s
  | .vlist xs => String.intercalate "," (xs.map (fun v =>
      match v with
      | .vstr s => s
      | .vnull => ""
      | .vundef => ""
      | _ => "[object Object]"))
  | _ => "[object Object]"

/-- Strict equality `===` on the modelled values.  The ids compared by the
library are strings, `null` or `undefined`, where `===` is structural;
object identity is approximated structurally. -/
def jsEq : Val → Val → Bool
  | .vnull, .vnull => true
  | .vundef, .vundef => true
  | .vstr a, .vstr b => a = b
  | _, _ => false

/-- Modelled from the spec: `isNull` of the missing `src/utils.js`
(lodash-style): true exactly for `null`. -/
def isNull : Val → Bool
  | .vnull => true
  | _ => false

/-- Modelled from the spec: `isObject` of the missing `src/utils.js`:
a plain object (class instances such as `Resource`/`Collection` are
excluded; the test-suite's expectations on `Resource`-valued
relationships force this reading). -/
def isObject : Val → Bool
  | .vobj _ => true
  | _ => false

/-- Modelled from the spec: `isList` of the missing `src/utils.js`:
an array. -/
def isList : Val → Bool
  | .vlist _ => true
  | _ => false

/-- Modelled from the spec: `isResource` of the missing `src/utils.js`:
a `Resource` instance. -/
def isResource : Val → Bool
  | .vres _ => true
  | _ => false

/-- Modelled from the spec: `isResourceIdentifier` of the missing
`src/utils.js`: a bare resource identifier, i.e. a plain object whose keys
are exactly `type` and `id`. -/
def isResourceIdentifier : Val → Bool
  | .vobj kvs =>
      "type" ∈ keys kvs && "id" ∈ keys kvs &&
        (keys kvs).all (fun k => k = "type" || k = "id")
  | _ => false

/-- Modelled from the spec: `hasData` of the missing `src/utils.js`:
an object exposing a `data` member (a `Collection` instance also has a
`data` field). -/
def hasData : Val → Bool
  | .vobj kvs => "data" ∈ keys kvs
  | .vcoll _ => true
  | _ => false

/-- Modelled from the spec: `hasLinks` of the missing `src/utils.js`:
a plain object exposing a `links` member. -/
def hasLinks : Val → Bool
  | .vobj kvs => "links" ∈ keys kvs
  | _ => false

/-- Modelled from the spec: `isSingularFetched` of the missing
`src/utils.js`: a resolved singular related value carrying more than bare
identity (non-empty attributes or relationships). -/
def isSingularFetched : Val → Bool
  | .vres r => ¬ r.attributes.isEmpty || ¬ r.relationships.isEmpty
  | _ => false

/-- Modelled from the spec: `isPluralFetched` of the missing
`src/utils.js`: a resolved plural related value (a `Collection`) whose
`data` has been populated (non-null). -/
def isPluralFetched : Val → Bool
  | .vcoll c => ¬ isNull c.data
  | _ => false

/-- lodash `_.isObject`: any non-primitive value (arrays and class
instances included). -/
def lodashIsObject : Val → Bool
  | .vobj _ => true
  | .vlist _ => true
  | .vres _ => true
  | .vcoll _ => true
  | _ => false

/-- lodash `_.isPlainObject`. -/
def isPlainObject : Val → Bool
  | .vobj _ => true
  | _ => false

/-- lodash `_.size` on the values it is applied to here. -/
def lodashSize : Val → Nat
  | .vobj kvs => kvs.length
  | .vlist xs => xs.length
  | _ => 0

/-- lodash `_.every(value, pred)` as used in `_overwrite`'s relationship
classification: arrays test every element, plain objects every value,
`null`/`undefined` and empty strings are vacuously true. -/
def everyJS (v : Val) (p : Val → Bool) : Bool :=
  match v with
  | .vlist xs => xs.all p
  | .vobj kvs => kvs.all (fun q => p q.2)
  | .vnull => true
  | .vundef => true
  | .vstr s => s.isEmpty
  | _ => true

/-- Errors: a thrown `Error(msg)`, a JavaScript `TypeError` (property
access on `null`/`undefined`, calling a missing method), or fuel
exhaustion of the model (never a real JavaScript failure). -/
inductive Err : Type where
  | thrown : String → Err
  | typeErr : Err
  | fuelOut : Err
deriving DecidableEq

/-- An HTTP request as issued through the connection: method, url, the
`params` object and the `data` (body) object. -/
structure Request : Type where
  method : String
  url : Val
  params : Val := .vnull
  rdata : Val := .vnull

/-- An HTTP response as consumed by the library: `status`, `headers` and
the parsed body `data`. -/
structure Response : Type where
  status : Option Nat := none
  headers : List (String × Val) := []
  rdata : Val := .vnull

/-- `resource.asResourceIdentifier()`. -/
def asResourceIdentifier (r : RState) : Val :=
  .vobj [("type", r.type), ("id", r.id)]

/-- `resource.asRelationship()`. -/
def asRelationship (r : RState) : Val :=
  .vobj [("data", asResourceIdentifier r)]

/-- A fresh, not-yet-overwritten instance of a class with the given
`TYPE` tag (lodash `pickBy` of the constructor's still-undefined maps
yields empty objects). -/
def emptyR (ty : Val) : RState :=
  .mk ty .vnull [] [] [] [] .vnull

/-- Is `v` `undefined`? (Used to decide whether a destructuring default
applies.) -/
def isUndef : Val → Bool
  | .vundef => true
  | _ => false

/-- Destructuring `{k = dflt} = obj`: the default applies exactly when the
property is absent or `undefined`. -/
def destr (kvs : List (String × Val)) (k : String) (dflt : Val) : Val :=
  match alookup kvs k with
  | none => dflt
  | some v => if isUndef v then dflt else v

/-- A destructured member that must be usable as a map (`attributes = {}`,
`relationships = {}`, `links = {}`): absent/`undefined` gives the empty
object.  A present non-object is modelled as a type error (JavaScript
would tolerate it until the first property write). -/
def objDestr (kvs : List (String × Val)) (k : String) : Except Err (List (String × Val)) :=
  match alookup kvs k with
  | none => .ok []
  | some .vundef => .ok []
  | some (.vobj m) => .ok m
  | some _ => .error .typeErr

/-- `included = []` destructuring, analogously to `objDestr`. -/
def listDestr (kvs : List (String × Val)) (k : String) : Except Err (List Val) :=
  match alookup kvs k with
  | none => .ok []
  | some .vundef => .ok []
  | some (.vlist xs) => .ok xs
  | some _ => .error .typeErr

/-- The relationship-vs-attribute classification of `_overwrite`
(src/resources.js lines 80-120): a value is a relationship when it is a
bare resource identifier, a `Resource`, a plain object with `links` or
with a `data` member that is an identifier / a `Resource` / a collection
of such, or a non-empty array of identifiers / `Resource`s. -/
def classify (v : Val) : Bool :=
  isResourceIdentifier v ||
  isResource v ||
  (isObject v && (hasLinks v ||
    (hasData v &&
      (isResourceIdentifier (getOpt v "data") ||
       isResource (getOpt v "data") ||
       everyJS (getOpt v "data") (fun item => isResourceIdentifier item || isResource item))))) ||
  (isList v && 0 < lodashSize v &&
    everyJS v (fun item => isResourceIdentifier item || isResource item))

/-- The keys `_overwrite` destructures away from its input; every other
key is a free-form prop to be classified. -/
def overwriteKeys : List String :=
  ["id", "attributes", "relationships", "links", "redirect", "type", "included"]

/-- Modelled from the spec: `Collection.fromData(API, data, url)` of the
newer `src/collections.js` (the file itself is not in the sources; the
spec says a fresh `Collection` is seeded directly from the resolved
resource list, with no network fetch, tagged with the `related` link when
available, and the test-suite shows `_url` defaulting to the empty
string, `_params`/`next`/`previous` null and `data` holding the list). -/
def colFromData (url : Val) (rows : List Val) : CState :=
  .mk (match url with | .vundef => .vstr "" | u => u) .vnull (.vlist rows) .vnull .vnull

/-- Effectful map over a list (the `for` loops that build one output per
input element), written structurally for easy reasoning. -/
def mapME {a b : Type} (g : a → Except Err b) : List a → Except Err (List b)
  | [] => .ok []
  | x :: rest => do
      let y ← g x
      let ys ← mapME g rest
      .ok (y :: ys)

/-- The replace-only-if-changed test of `_setRelated`'s plural branch
(src/resources.js lines 184-194): on equal lengths, some incoming item
has a different id than the current one or carries non-empty
attributes/relationships.  Reading `.id` off a `null`/`undefined`
current item throws. -/
def zipChanged : List Val → List RState → Except Err Bool
  | [], [] => .ok false
  | [], _ :: _ => .ok true
  | _ :: _, [] => .ok false
  | p :: ps, n :: ns =>
      match p with
      | .vnull => .error .typeErr
      | .vundef => .error .typeErr
      | _ =>
          if ¬ jsEq (getOpt p "id") n.id || 0 < n.attributes.length ||
              0 < n.relationships.length then
            .ok true
          else zipChanged ps ns

mutual

/-- `JsonApi.new({type, ...props})` (src/apis.js lines 88-102): resolve or
lazily auto-register the bound subclass for `type` (so the new instance's
class `TYPE` is exactly the `type` member) and construct it from the
remaining properties.  Destructuring `null`/`undefined` throws; other
non-plain-object inputs carry no modelled own properties. -/
def apiNew : Nat → Val → Except Err RState
  | 0, _ => .error .fuelOut
  | f + 1, v =>
    match v with
    | .vnull => .error .typeErr
    | .vundef => .error .typeErr
    | .vobj kvs =>
        overwrite f (emptyR ((alookup kvs "type").getD .vundef))
          (.vobj (adelete kvs "type"))
    | .vres r =>
        -- rest-spreading a Resource instance picks up its own enumerable
        -- fields, in their assignment order, and no `type`
        overwrite f (emptyR .vundef) (.vobj
          [("id", r.id), ("attributes", .vobj r.attributes),
           ("links", .vobj r.links), ("redirect", r.redirect),
           ("relationships", .vobj r.relationships),
           ("related", .vobj r.related)])
    | .vcoll c =>
        overwrite f (emptyR .vundef) (.vobj
          [("_url", c.url), ("_params", c.params), ("data", c.data),
           ("next", c.next), ("previous", c.previous)])
    | .vlist xs =>
        -- rest-spreading an array yields its index-keyed elements
        overwrite f (emptyR .vundef)
          (.vobj (xs.enum.map (fun p => (toString p.1, p.2))))
    | .vstr s =>
        overwrite f (emptyR .vundef)
          (.vobj (s.toList.enum.map (fun p => (toString p.1, Val.vstr (String.mk [p.2])))))

/-- `JsonApi.asResource(value)` (src/apis.js lines 104-118): identity on
`null` and `Resource`s; otherwise unwrap a `data` envelope and construct
via `new`.  `'data' in value` throws on primitives. -/
def asResource : Nat → Val → Except Err Val
  | 0, _ => .error .fuelOut
  | f + 1, v =>
      if isNull v || isResource v then .ok v
      else
        match v with
        | .vobj kvs =>
            if "data" ∈ keys kvs then
              (apiNew f ((alookup kvs "data").getD .vundef)).map .vres
            else (apiNew f v).map .vres
        | .vlist _ => (apiNew f v).map .vres
        | .vcoll c => (apiNew f c.data).map .vres
        | _ => .error .typeErr

/-- `Resource._overwrite(data)` (src/resources.js lines 37-140): check the
`type` tag, classify free-form props into attributes/relationships, keep
only the still-declared keys of the old `relationships`/`related` maps,
build the included-resources map, and normalize every relationship via
`_setRelated`. -/
def overwrite : Nat → RState → Val → Except Err RState
  | 0, _, _ => .error .fuelOut
  | f + 1, st, input =>
    match input with
    | .vobj kvs => do
        let idV := destr kvs "id" .vnull
        let typeV := destr kvs "type" .vnull
        let redirectV := destr kvs "redirect" .vnull
        let attrs0 ← objDestr kvs "attributes"
        let rels0 ← objDestr kvs "relationships"
        let links0 ← objDestr kvs "links"
        let included0 ← listDestr kvs "included"
        if truthy typeV && ¬ jsEq typeV st.type then
          .error (.thrown ("Received type " ++ jsToString typeV ++
            ", expected " ++ jsToString st.type))
        else
          let props := kvs.filter (fun p => p.1 ∉ overwriteKeys)
          let maps := props.foldl
            (fun (m : List (String × Val) × List (String × Val)) p =>
              if classify p.2 then (m.1, aset m.2 p.1 p.2)
              else (aset m.1 p.1 p.2, m.2))
            (attrs0, rels0)
          let relsF := st.relationships.filter (fun p => p.1 ∈ keys maps.2)
          let relatedF := st.related.filter (fun p => p.1 ∈ keys maps.2)
          let incMap ← included0.foldlM
            (fun (acc : List (String × RState)) item =>
              match item with
              | .vnull => .error Err.typeErr
              | .vundef => .error Err.typeErr
              | _ => do
                  let key := jsToString (getOpt item "type") ++ "__" ++
                    jsToString (getOpt item "id")
                  let rv ← asResource f item
                  match rv with
                  | .vres rr => .ok (aset acc key rr)
                  | _ => .error Err.typeErr)
            []
          let st1 : RState := .mk st.type idV maps.1 relsF relatedF links0 redirectV
          maps.2.foldlM (fun acc p => setRelated f acc p.1 p.2 incMap) st1
    | _ => .error .typeErr

/-- `Resource._setRelated(name, value, includedMap)` (src/resources.js
lines 142-240): falsy values null out both maps; list-shaped values (or
objects with a `data` list, or `links`-only objects) take the plural
branch; everything else the singular branch, accepting a `data` envelope,
a bare identifier object or a `Resource`, and consulting the included map
by `type__id`. -/
def setRelated : Nat → RState → String → Val → List (String × RState) →
    Except Err RState
  | 0, _, _, _, _ => .error .fuelOut
  | f + 1, st, name, value, incMap =>
    if ¬ truthy value then
      .ok (.mk st.type st.id st.attributes (aset st.relationships name .vnull)
        (aset st.related name .vnull) st.links st.redirect)
    else if isList value || (isObject value && isList (getOpt value "data")) ||
        (isObject value && hasLinks value && ¬ hasData value) then
      -- plural branch
      let rel0 : List (String × Val) :=
        if isObject value && hasLinks value then [("links", getOpt value "links")]
        else []
      let value1 := if hasData value then getOpt value "data" else value
      match value1 with
      | .vlist items => do
          let pairs ← mapME (fun item => do
            let rv ← asResource f item
            match rv with
            | .vres r =>
                let key := jsToString r.type ++ "__" ++ jsToString r.id
                .ok (asResourceIdentifier r,
                  (match alookup incMap key with | some rr => rr | none => r))
            | _ => .error Err.typeErr) items
          let datas := pairs.map Prod.fst
          let resources := pairs.map Prod.snd
          let rel1 := rel0 ++ [("data", Val.vlist datas)]
          let url ← (match alookup rel1 "links" with
            | none => .ok Val.vnull
            | some (.vobj lkvs) =>
                .ok (if "related" ∈ keys lkvs then
                  (alookup lkvs "related").getD Val.vundef else Val.vnull)
            | some (.vres _) => .ok Val.vnull
            | some (.vcoll _) => .ok Val.vnull
            | some _ => .error Err.typeErr)
          let cond ← (match alookup st.related name with
            | none => .ok true
            | some pv =>
                if ¬ truthy pv then .ok true
                else
                  let pdata := getOpt pv "data"
                  if ¬ truthy pdata then .ok true
                  else
                    match pdata with
                    | .vlist prevItems =>
                        if prevItems.length ≠ resources.length then .ok true
                        else zipChanged prevItems resources
                    | _ => .ok true)
          let related' := if cond then
            aset st.related name (.vcoll (colFromData url (resources.map Val.vres)))
            else st.related
          .ok (.mk st.type st.id st.attributes (aset st.relationships name (.vobj rel1))
            related' st.links st.redirect)
      | _ =>
          -- links-only unfetched plural: only the relationship entry is written
          .ok (.mk st.type st.id st.attributes (aset st.relationships name (.vobj rel0))
            st.related st.links st.redirect)
    else
      -- singular branch
      match value with
      | .vobj kvs => do
          let dataV := if hasData value then (alookup kvs "data").getD .vundef
            else value
          let linksV := if hasData value && "links" ∈ keys kvs then
            (alookup kvs "links").getD .vundef else .vnull
          let resource0 ← apiNew f dataV
          let key := jsToString (getOpt dataV "type") ++ "__" ++
            jsToString (getOpt dataV "id")
          let resource := match alookup incMap key with
            | some rr => rr
            | none => resource0
          let rel1 := ("data", dataV) ::
            (if truthy linksV then [("links", linksV)] else [])
          let prevId := match alookup st.related name with
            | none => Val.vundef
            | some pv => if truthy pv then getOpt pv "id" else Val.vundef
          let cond := ¬ jsEq prevId resource.id || 0 < resource.attributes.length ||
            0 < resource.relationships.length
          let related' := if cond then aset st.related name (.vres resource)
            else st.related
          .ok (.mk st.type st.id st.attributes
            (aset st.relationships name (.vobj rel1)) related' st.links st.redirect)
      | .vres r =>
          let dataV := asResourceIdentifier r
          let resource := r
          let rel1 := [("data", dataV)]
          let prevId := match alookup st.related name with
            | none => Val.vundef
            | some pv => if truthy pv then getOpt pv "id" else Val.vundef
          let cond := ¬ jsEq prevId resource.id || 0 < resource.attributes.length ||
            0 < resource.relationships.length
          let related' := if cond then aset st.related name (.vres resource)
            else st.related
          .ok (.mk st.type st.id st.attributes
            (aset st.relationships name (.vobj rel1)) related' st.links st.redirect)
      | _ => .error (.thrown ("Cannot set relationship " ++ name))

end

/-- `new SomeResourceClass(data)`: the constructor just runs `_overwrite`
on a fresh instance (src/resources.js lines 33-35). -/
def construct (f : Nat) (ty : Val) (input : Val) : Except Err RState :=
  overwrite f (emptyR ty) input

/-- `resource.get(key)` (src/resources.js lines 242-249). -/
def rget (st : RState) (key : String) : Val :=
  if key ∈ keys st.related then (alookup st.related key).getD .vundef
  else (alookup st.attributes key).getD (.vundef)

/-- `resource.set(key, value)` (src/resources.js lines 251-259): on a
declared relationship, re-normalize via `_setRelated` and then re-derive
the serialized relationship from `this.related[key].asRelationship()` —
which throws unless the resolved related value is a `Resource`. -/
def rset (f : Nat) (st : RState) (key : String) (value : Val) : Except Err RState :=
  if key ∈ keys st.relationships then do
    let st' ← setRelated f st key value []
    match alookup st'.related key with
    | some (.vres r) =>
        .ok (.mk st'.type st'.id st'.attributes
          (aset st'.relationships key (asRelationship r)) st'.related st'.links
          st'.redirect)
    | _ => .error .typeErr
  else
    .ok (.mk st.type st.id (aset st.attributes key value) st.relationships
      st.related st.links st.redirect)

/-- `resource.getItemUrl()` (src/resources.js lines 656-662). -/
def getItemUrl (st : RState) : Val :=
  let u := (alookup st.links "self").getD .vundef
  if truthy u then u
  else .vstr ("/" ++ jsToString st.type ++ "/" ++ jsToString st.id)

/-- `SomeResourceClass.getCollectionUrl()` (src/resources.js lines 664-666). -/
def getCollectionUrl (ty : Val) : Val :=
  .vstr ("/" ++ jsToString ty)

/-- `new Collection(API, url)` (src/collections.js lines 7-13): params,
`data`, `next` and `previous` start out null. -/
def colNew (url : Val) : CState :=
  .mk url .vnull .vnull .vnull .vnull

/-- `SomeResourceClass.list()` (src/resources.js lines 558-560). -/
def listCol (ty : Val) : CState :=
  colNew (getCollectionUrl ty)

/-- The 3xx test of `reload` (src/resources.js lines 269-271): a 3xx
status together with a truthy `Location` header. -/
def isRedirect (resp : Response) : Bool :=
  (match resp.status with
   | some s => 300 ≤ s && s < 400
   | none => false) &&
  truthy ((alookup resp.headers "Location").getD .vundef)

/-- The 2xx body handling of `reload` (src/resources.js lines 281-286):
take `body.data` and, when the body carries a sibling `included` array,
copy it onto the data object (which must then be an object). -/
def reloadData (body : Val) : Except Err Val :=
  let dataV := getOpt body "data"
  if (match body with
      | .vobj m => decide ("included" ∈ keys m)
      | _ => false) then
    match dataV with
    | .vobj dkvs => .ok (Val.vobj (aset dkvs "included" (getOpt body "included")))
    | .vnull => .error Err.typeErr
    | .vundef => .error Err.typeErr
    | other => .ok other
  else .ok dataV

/-- The `include` query parameter of `reload` (src/resources.js line
267): comma-joined relationship names, or null. -/
def includeParams : Option (List String) → Val
  | some xs => .vobj [("include", .vstr (String.intercalate "," xs))]
  | none => .vnull

/-- `resource.reload(include)` (src/resources.js lines 261-287): GET the
item url; on a 3xx response with a Location header re-seed from the
current attributes plus the relationships map merged (spread) with the
resolved related values, setting only `redirect`; otherwise re-seed from
the response body's `data`, copying a sibling `included` array onto it. -/
def reload (f : Nat) (st : RState) (includeArg : Option (List String))
    (resp : Response) : Except Err (Request × RState) :=
  let req : Request :=
    { method := "get", url := getItemUrl st, params := includeParams includeArg }
  if isRedirect resp then
    (overwrite f st (.vobj
      [("id", st.id), ("attributes", .vobj st.attributes),
       ("relationships", .vobj (amerge st.relationships st.related)),
       ("links", .vobj st.links),
       ("redirect", (alookup resp.headers "Location").getD .vundef)])).map
      (fun st' => (req, st'))
  else
    match resp.rdata with
    | .vnull => .error .typeErr
    | .vundef => .error .typeErr
    | body => do
        let dataV2 ← reloadData body
        (overwrite f st dataV2).map (fun st' => (req, st'))

/-- `resource.follow()` (src/resources.js lines 562-567): a plain
`axios.get` against the recorded redirect target; throws without one. -/
def follow (st : RState) : Except Err Request :=
  if truthy st.redirect then .ok { method := "get", url := st.redirect }
  else .error (.thrown "Cannot follow without redirect")

/-- The two outcomes of the static `get`: delegation to `list().get(arg)`
or a stub constructed from a literal id and reloaded. -/
inductive GetResult : Type where
  | delegated : CState → Val → GetResult
  | fetched : Request → RState → GetResult

/-- Static `Resource.get(arg, {include})` (src/resources.js lines
289-298): `null` or a plain object delegates to `list().get(arg)`; a
literal id constructs `new this({id: arg})` and reloads it. -/
def staticGet (f : Nat) (ty : Val) (arg : Val) (includeArg : Option (List String))
    (resp : Response) : Except Err GetResult :=
  if isNull arg || isPlainObject arg then .ok (.delegated (listCol ty) arg)
  else do
    let st ← construct f ty (.vobj [("id", arg)])
    let (req, st') ← reload f st includeArg resp
    .ok (.fetched req st')

/-- The outcome of `resource.fetch(name, force)`. -/
inductive FetchOut : Type where
  | nullRel : FetchOut
  | cached : Val → FetchOut
  | reloaded : Request → Val → FetchOut
  | newCollection : CState → FetchOut

/-- `resource.fetch(relationshipName, force)` (src/resources.js lines
300-336): error on an undeclared name; null relationship returns null; a
fetched related value is returned from cache unless forced; inline
relationship data reloads the related object; otherwise a fresh
`Collection` against the `related` link is stored and returned. -/
def fetchRel (f : Nat) (st : RState) (name : String) (force : Bool)
    (resp : Response) : Except Err (FetchOut × RState) :=
  if name ∉ keys st.relationships then
    .error (.thrown ("Resource does not have relationship " ++ name))
  else
    let rel := (alookup st.relationships name).getD .vundef
    if isNull rel then .ok (.nullRel, st)
    else
      let related0 := (alookup st.related name).getD .vundef
      if (isSingularFetched related0 || isPluralFetched related0) && ¬ force then
        .ok (.cached related0, st)
      else if lodashIsObject (getOpt rel "data") then
        match related0 with
        | .vres r => do
            let (req, r') ← reload f r none resp
            .ok (.reloaded req (.vres r'),
              .mk st.type st.id st.attributes st.relationships
                (aset st.related name (.vres r')) st.links st.redirect)
        | _ => .error .typeErr
      else
        let linksV := let l := getOpt rel "links"; if truthy l then l else .vobj []
        let url := getOpt linksV "related"
        if ¬ truthy url then
          .error (.thrown ("Cannot fetch " ++ name ++ ", no related link"))
        else
          let c := colNew url
          .ok (.newCollection c,
            .mk st.type st.id st.attributes st.relationships
              (aset st.related name (.vcoll c)) st.links st.redirect)

/-- `resource._generateDataForSaving(fields)` (src/resources.js lines
430-452): attributes are copied verbatim; relationship entries are
re-serialized via `API.asResource(...).asRelationship()` (throwing on a
null relationship); an unknown field throws. -/
def generateDataForSaving (f : Nat) (st : RState) (fields : List String) :
    Except Err (List (String × Val)) :=
  fields.foldlM (fun (acc : List (String × Val)) field =>
    if field ∈ keys st.attributes then
      let cur := match alookup acc "attributes" with
        | some (.vobj m) => m
        | _ => []
      .ok (aset acc "attributes"
        (.vobj (aset cur field ((alookup st.attributes field).getD .vundef))))
    else if field ∈ keys st.relationships then do
      let rv ← asResource f ((alookup st.relationships field).getD .vundef)
      match rv with
      | .vres r =>
          let cur := match alookup acc "relationships" with
            | some (.vobj m) => m
            | _ => []
          .ok (aset acc "relationships" (.vobj (aset cur field (asRelationship r))))
      | _ => .error Err.typeErr
    else .error (.thrown ("Unknown field " ++ field))) []

/-- The field-list defaulting shared by `_saveExisting` and `_saveNew`
(src/resources.js lines 388-395 and 408-415): an empty list becomes every
key of `attributes` followed by every key of `related`. -/
def defaultFields (st : RState) (fields : List String) : List String :=
  if fields.isEmpty then keys st.attributes ++ keys st.related else fields

/-- The PATCH request built by `_saveExisting` (src/resources.js lines
387-405): `{...asResourceIdentifier(), ...generated}` against the item
url. -/
def mkSaveExistingRequest (f : Nat) (st : RState) (fields : List String) :
    Except Err Request := do
  let gen ← generateDataForSaving f st (defaultFields st fields)
  let req : Request :=
    { method := "patch", url := getItemUrl st,
      rdata := .vobj [("data",
        .vobj (amerge [("type", st.type), ("id", st.id)] gen))] }
  .ok req

/-- The POST request built by `_saveNew` (src/resources.js lines
407-428): `{type: TYPE, id?}` merged with the generated data, against the
collection url. -/
def mkSaveNewRequest (f : Nat) (st : RState) (fields : List String) :
    Except Err Request := do
  let gen ← generateDataForSaving f st (defaultFields st fields)
  let base : List (String × Val) :=
    if truthy st.id then [("type", st.type), ("id", st.id)]
    else [("type", st.type)]
  let req : Request :=
    { method := "post", url := getCollectionUrl st.type,
      rdata := .vobj [("data", .vobj (amerge base gen))] }
  .ok req

/-- Is a value `null` or `undefined` (reading a property off it would
throw)? -/
def nullish : Val → Bool
  | .vnull => true
  | .vundef => true
  | _ => false

/-- Property access off `v`: throws the `TypeError` when `v` is
`null`/`undefined`, else hands `v` on. -/
def accessible (v : Val) : Except Err Val :=
  if nullish v then .error Err.typeErr else .ok v

/-- One iteration of `_postSave`'s reconciliation loop (src/resources.js
lines 457-471) over the entry `p` of the copied `related` map: read
`relatedInstance.id` and `data.relationships[name].data.id` (each
property read off a `null`/`undefined` step throws), then materialize /
drop / keep the cached entry. -/
def postSaveStep (f : Nat) (dataV : Val) (acc : List (String × Val))
    (p : String × Val) : Except Err (List (String × Val)) := do
  let pv ← accessible p.2
  let oldId := getOpt pv "id"
  let d ← accessible dataV
  let r ← accessible (getOpt d "relationships")
  let entry := getOpt r p.1
  let e ← accessible entry
  let d2 ← accessible (getOpt e "data")
  let newId := getOpt d2 "id"
  if ¬ jsEq oldId newId then
    if truthy newId then do
      let rr ← apiNew f entry
      .ok (aset acc p.1 (.vres rr))
    else .ok (adelete acc p.1)
  else .ok acc

/-- `resource._postSave(response)` (src/resources.js lines 454-476): the
reconciliation loop over a copy of `related`, then a full re-seed through
`_overwrite` from the body's `data` with its `relationships` merged under
the reconciled related map. -/
def postSave (f : Nat) (st : RState) (resp : Response) : Except Err RState := do
  let b ← accessible resp.rdata
  let dataV := getOpt b "data"
  let related' ← st.related.foldlM (postSaveStep f dataV) st.related
  let d2 ← accessible dataV
  let relsV2 := getOpt d2 "relationships"
  let relsKvs ← match (if truthy relsV2 then relsV2 else Val.vobj []) with
    | .vobj m => .ok m
    | _ => .error Err.typeErr
  let dataKvs ← match dataV with
    | .vobj m => .ok (adelete m "relationships")
    | _ => .error Err.typeErr
  overwrite f st (.vobj (("relationships", Val.vobj (amerge relsKvs related')) :: dataKvs))

/-- `resource._saveExisting(fields)` (src/resources.js lines 387-405):
the PATCH request followed by `_postSave` reconciliation. -/
def saveExisting (f : Nat) (st : RState) (fields : List String)
    (resp : Response) : Except Err (Request × RState) := do
  let req ← mkSaveExistingRequest f st fields
  let st' ← postSave f st resp
  .ok (req, st')

/-- `resource._saveNew(fields)` (src/resources.js lines 407-428). -/
def saveNew (f : Nat) (st : RState) (fields : List String)
    (resp : Response) : Except Err (Request × RState) := do
  let req ← mkSaveNewRequest f st fields
  let st' ← postSave f st resp
  .ok (req, st')

/-- `resource.save(firstArg, secondArg)` (src/resources.js lines
338-385): overload resolution (two truthy arguments: field list and
props; one argument: an array is a field list, any other lodash-object is
a props map), application of every prop via `set`, then routing on
`this.id` to `_saveExisting` or `_saveNew`. -/
def save (f : Nat) (st : RState) (firstArg secondArg : Val)
    (resp : Response) : Except Err (Request × RState) := do
  let fp : Except Err (List Val × List (String × Val)) :=
    if truthy firstArg && truthy secondArg then
      match firstArg, secondArg with
      | .vlist xs, .vobj m => .ok (xs, m)
      | .vlist xs, _ => .ok (xs, [])
      | _, _ => .error .typeErr
    else if truthy firstArg then
      if isList firstArg then
        match firstArg with
        | .vlist xs => .ok (xs, [])
        | _ => .ok ([], [])
      else if lodashIsObject firstArg then
        match firstArg with
        | .vobj m => .ok ([], m)
        | _ => .ok ([], [])
      else .ok ([], [])
    else .ok ([], [])
  let (fields0, props) ← fp
  let st1 ← props.foldlM (fun acc p => rset f acc p.1 p.2) st
  let fields := fields0.map jsToString ++ keys props
  if truthy st1.id then saveExisting f st1 fields resp
  else saveNew f st1 fields resp

/-- `resource.delete()` (src/resources.js lines 498-510): a DELETE
against the item url, then `this.id = null`; every other field is left
untouched. -/
def deleteOp (st : RState) : Request × RState :=
  ({ method := "delete", url := getItemUrl st },
   .mk st.type .vnull st.attributes st.relationships st.related st.links
     st.redirect)

/-- `resource.change(field, value)` (src/resources.js lines 512-528):
PATCH the relationship sub-resource (`relationships.field.links.self` or
the derived default url) with the new identifier or the falsy value
as-is, then update `relationships[field].data` and replace
`related[field]` only when the id actually changed. -/
def change (f : Nat) (st : RState) (field : String) (value : Val) :
    Except Err (Request × RState) :=
  if field ∉ keys st.relationships then
    .error (.thrown (field ++ " is not a relationship"))
  else do
    let v' ← if truthy value then asResource f value else .ok value
    let payload := if truthy v' then
        (match v' with | .vres r => asResourceIdentifier r | other => other)
      else v'
    let relV := (alookup st.relationships field).getD .vundef
    let selfV := getOpt (getOpt relV "links") "self"
    let url := if isUndef selfV then
        Val.vstr ("/" ++ jsToString st.type ++ "/" ++ jsToString st.id ++
          "/relationships/" ++ field)
      else selfV
    let req : Request :=
      { method := "patch", url := url, rdata := .vobj [("data", payload)] }
    let rel1 ← match (if truthy relV then relV else Val.vobj []) with
      | .vobj m => .ok m
      | _ => .error Err.typeErr
    let rels' := aset st.relationships field (.vobj (aset rel1 "data" payload))
    let prevId := match alookup st.related field with
      | none => Val.vundef
      | some pv => if truthy pv then getOpt pv "id" else Val.vundef
    let newId := if truthy v' then
        (match v' with | .vres r => r.id | _ => Val.vundef)
      else Val.vundef
    let related' := if ¬ jsEq prevId newId then aset st.related field v'
      else st.related
    .ok (req, .mk st.type st.id st.attributes rels' related' st.links st.redirect)

/-- `collection.extra(params)` (src/collections.js lines 69-72): a fresh
unfetched `Collection` at the same url with the params shallow-merged. -/
def colExtra (c : CState) (params : List (String × Val)) : CState :=
  .mk c.url
    (.vobj (amerge (match c.params with | .vobj m => m | _ => []) params))
    .vnull .vnull .vnull

/-- JavaScript `key.split('__')`, written as structural recursion over the
character list so that it computes by `rfl`. -/
def splitUUAux : List Char → List Char → List String
  | acc, [] => [String.mk acc.reverse]
  | acc, '_' :: '_' :: rest => String.mk acc.reverse :: splitUUAux [] rest
  | acc, c :: rest => splitUUAux (c :: acc) rest

/-- `key.split('__')`. -/
def splitUU (s : String) : List String :=
  splitUUAux [] s.toList

/-- The query-parameter serialization of `collection.filter(filters)`
(src/collections.js lines 74-90): `a__b__c` keys become
`filter[a][b][c]`, `Resource` values are replaced by their id. -/
def filterParams (filters : List (String × Val)) : List (String × Val) :=
  filters.foldl (fun acc p =>
    let fkey := match splitUU p.1 with
      | [] => "filter[]"
      | p0 :: rest =>
          "filter[" ++ p0 ++ "]" ++ String.join (rest.map (fun q => "[" ++ q ++ "]"))
    let v := match p.2 with
      | .vres r => r.id
      | other => other
    aset acc fkey v) []

/-- `collection.filter(filters)` (src/collections.js lines 74-90). -/
def colFilter (c : CState) (filters : List (String × Val)) : CState :=
  colExtra c (filterParams filters)

/-- The `'included' in response.data` access of `collection.fetch`
(src/collections.js line 27): throws on primitives and nullish bodies. -/
def colBody (v : Val) : Except Err Val :=
  match v with
  | .vnull => .error Err.typeErr
  | .vundef => .error Err.typeErr
  | .vstr _ => .error Err.typeErr
  | b => .ok b

/-- The included-map construction of `collection.fetch`
(src/collections.js lines 26-32): raw included items keyed by
`type__id`. -/
def colIncMap (body : Val) : Except Err (List (String × Val)) :=
  if (match body with
      | .vobj m => decide ("included" ∈ keys m)
      | _ => false) then
    match getOpt body "included" with
    | .vlist items => items.foldlM (fun (acc : List (String × Val)) item =>
        match item with
        | .vnull => .error Err.typeErr
        | .vundef => .error Err.typeErr
        | _ => .ok (aset acc
            (jsToString (getOpt item "type") ++ "__" ++
              jsToString (getOpt item "id")) item)) []
    | _ => .error Err.typeErr
  else .ok []

/-- The `for (const item of response.data.data)` iteration source of
`collection.fetch` (src/collections.js line 35): the body's `data` must
be an array. -/
def colRows (body : Val) : Except Err (List Val) :=
  match getOpt body "data" with
  | .vlist rs => .ok rs
  | _ => .error Err.typeErr

/-- The per-row parsing of `collection.fetch` (src/collections.js lines
36-50): pre-materialize every relationship whose identifier matches an
included entry, then hand `{relationships, ...item}` to `API.new`. -/
def colParseRow (f : Nat) (incMap : List (String × Val)) (item : Val) :
    Except Err RState := do
  match item with
  | .vnull => .error Err.typeErr
  | .vundef => .error Err.typeErr
  | _ => do
      let itemRels := let r := getOpt item "relationships";
        if truthy r then r else Val.vobj []
      let relKvs ← match itemRels with
        | .vobj m => .ok m
        | _ => .error Err.typeErr
      let related ← relKvs.foldlM (fun (acc : List (String × Val)) p => do
        let rel := p.2
        if isNull rel || ¬ hasData rel then .ok acc
        else do
          let rd := getOpt rel "data"
          match rd with
          | .vnull => .error Err.typeErr
          | .vundef => .error Err.typeErr
          | _ =>
              let key := jsToString (getOpt rd "type") ++ "__" ++
                jsToString (getOpt rd "id")
              match alookup incMap key with
              | some doc => do
                  let r ← apiNew f doc
                  .ok (aset acc p.1 (Val.vres r))
              | none => .ok acc) []
      let itemKvs := match item with
        | .vobj m => adelete m "relationships"
        | _ => []
      apiNew f (.vobj (("relationships", Val.vobj (amerge relKvs related)) ::
        itemKvs))

/-- The network branch of `collection.fetch()` (src/collections.js lines
20-55): GET the collection url with the current params, build the
included map, parse every row through `API.new`, and record the
`next`/`previous` links. -/
def colFetchRun (f : Nat) (c : CState) (resp : Response) :
    Except Err (Option Request × CState) := do
  let req : Request := { method := "get", url := c.url, params := c.params }
  let body ← colBody resp.rdata
  let incMap ← colIncMap body
  let rows ← colRows body
  let parsed ← mapME (colParseRow f incMap) rows
  let linksV := let l := getOpt body "links"; if truthy l then l else Val.vobj []
  let nextV := let n := getOpt linksV "next"; if truthy n then n else Val.vnull
  let prevV := let p := getOpt linksV "previous"; if truthy p then p else Val.vnull
  .ok (some req, .mk c.url c.params (.vlist (parsed.map Val.vres)) nextV prevV)

/-- The guard of `collection.fetch()` (src/collections.js lines 16-18). -/
def colFetch (f : Nat) (c : CState) (resp : Response) :
    Except Err (Option Request × CState) :=
  if ¬ isNull c.data then .ok (none, c)
  else colFetchRun f c resp

/-- `collection.get(filters)` (src/collections.js lines 118-130): filter,
fetch, and require exactly one row — zero rows throw the does-not-exist
error, more than one the multiple-results error carrying the count. -/
def colGet (f : Nat) (c : CState) (filters : List (String × Val))
    (resp : Response) : Except Err (Option Request × Val) := do
  let qs := colFilter c filters
  let (req, qs') ← colFetch f qs resp
  match qs'.data with
  | .vlist xs =>
      if xs.length = 0 then .error (.thrown "Does not exist")
      else if 1 < xs.length then
        .error (.thrown ("Multiple objects returned (" ++ toString xs.length ++ ")"))
      else .ok (req, xs.headD .vundef)
  | _ => .error .typeErr

/-- The outcome of the transport call made by `JsonApi.request`
(src/apis.js lines 67-84): success with a response, or a thrown transport
error optionally carrying the remote's response (`e.response`). -/
inductive TransportOutcome : Type where
  | success : Response → TransportOutcome
  | failure : Option Response → TransportOutcome

/-- How `JsonApi.request` can fail: `wire` is the
`JsonApiException(status, errors)` of the missing `src/errors.js`
(Modelled from the spec: a wire error carries the HTTP status and the
remote's error list); `transport` is the original failure, re-thrown
unchanged. -/
inductive ApiErr : Type where
  | wire : Option Nat → Val → ApiErr
  | transport : Option Response → ApiErr

/-- The catch-clause of `JsonApi.request` (src/apis.js lines 76-84):
`_.get(e.response, 'data.errors')` truthy wraps the failure into a wire
error carrying `e.response.status` and the error list; anything else is
re-thrown unchanged. -/
def apiRequest (outcome : TransportOutcome) : Except ApiErr Response :=
  match outcome with
  | .success r => .ok r
  | .failure eresp =>
      match eresp with
      | none => .error (.transport none)
      | some tr =>
          let errs := match tr.rdata with
            | .vnull => Val.vundef
            | .vundef => Val.vundef
            | d => getOpt d "errors"
          if truthy errs then .error (.wire tr.status errs)
          else .error (.transport (some tr))

/-- `url[0] == '/'` host prefixing of `JsonApi.request` (src/apis.js
lines 54-56). -/
def buildUrl (host url : String) : String :=
  if url.startsWith "/" then host ++ url else url

/-- A relationship entry in wire shape, as `_setRelated` can re-consume
it: `null`, or an object whose `data` member (when present) is a bare
resource identifier, or a `links`-only object without `data`.  A resolved
plural value (a `Collection`), a `data` list, or any other shape falls
outside. -/
def relWireOk : Val → Bool
  | .vnull => true
  | .vobj kvs =>
      match alookup kvs "data" with
      | some d => isResourceIdentifier d
      | none => decide ("links" ∈ keys kvs)
  | _ => false

/-- A `related` entry that resolved to `null` or a singular `Resource`
(not a plural `Collection`). -/
def relatedResolved : Val → Bool
  | .vnull => true
  | .vres _ => true
  | _ => false

/-- Every key of the `related` map is also a key of the `relationships`
map (the direction of the lock-step invariant the code maintains). -/
def relKeysCovered (st : RState) : Prop :=
  ∀ k ∈ keys st.related, k ∈ keys st.relationships

/-! ### Association-list lemmas -/

theorem alookup_aset_self {α : Type} (l : List (String × α)) (k : String) (v : α) :
    alookup (aset l k v) k = some v := by
  induction l with
  | nil => simp [aset, alookup]
  | cons p rest ih =>
      by_cases h : p.1 = k
      · simp [aset, h, alookup]
      · simp [aset, h, alookup, ih]

theorem alookup_aset_ne {α : Type} (l : List (String × α)) (k k' : String) (v : α)
    (h : k' ≠ k) : alookup (aset l k v) k' = alookup l k' := by
  induction l with
  | nil =>
      simp only [aset, alookup]
      rw [if_neg (fun hh : k = k' => h hh.symm)]
  | cons p rest ih =>
      by_cases hp : p.1 = k
      · simp only [aset, if_pos hp, alookup]
        rw [if_neg (fun hh : k = k' => h hh.symm),
          if_neg (fun hh : p.1 = k' => h (by rw [← hh, hp]))]
      · simp only [aset, if_neg hp, alookup, ih]

theorem keys_nil {α : Type} : keys ([] : List (String × α)) = [] := rfl

theorem keys_cons {α : Type} (p : String × α) (l : List (String × α)) :
    keys (p :: l) = p.1 :: keys l := rfl

theorem keys_aset {α : Type} (l : List (String × α)) (k : String) (v : α) :
    keys (aset l k v) = if k ∈ keys l then keys l else keys l ++ [k] := by
  induction l with
  | nil => simp [aset, keys]
  | cons p rest ih =>
      by_cases hp : p.1 = k
      · simp [aset, if_pos hp, keys_cons, hp, keys]
      · have hne : ¬ (k = p.1) := fun hh => hp hh.symm
        have : aset (p :: rest) k v = p :: aset rest k v := by
          simp [aset, if_neg hp]
        rw [this, keys_cons, keys_cons, ih]
        by_cases hm : k ∈ keys rest
        · simp [hm, hne, List.mem_cons]
        · simp [hm, hne, List.mem_cons]

theorem mem_keys_aset {α : Type} (l : List (String × α)) (k : String) (v : α)
    (k' : String) : k' ∈ keys (aset l k v) ↔ k' ∈ keys l ∨ k' = k := by
  rw [keys_aset]
  by_cases hm : k ∈ keys l
  · rw [if_pos hm]
    constructor
    · exact fun h => Or.inl h
    · rintro (h | h)
      · exact h
      · exact h ▸ hm
  · rw [if_neg hm]
    simp [List.mem_append]

theorem mem_keys_of_alookup {α : Type} {l : List (String × α)} {k : String} {v : α}
    (h : alookup l k = some v) : k ∈ keys l := by
  induction l with
  | nil => simp [alookup] at h
  | cons p rest ih =>
      by_cases hp : p.1 = k
      · subst hp
        simp [keys]
      · simp only [alookup, if_neg hp] at h
        simp only [keys, List.map_cons, List.mem_cons]
        exact Or.inr (ih h)

theorem alookup_isSome_of_mem_keys {α : Type} {l : List (String × α)} {k : String}
    (h : k ∈ keys l) : ∃ v, alookup l k = some v := by
  induction l with
  | nil => simp [keys] at h
  | cons p rest ih =>
      by_cases hp : p.1 = k
      · exact ⟨p.2, by simp [alookup, hp]⟩
      · have hk : k ∈ keys rest := by
          simp only [keys, List.map_cons, List.mem_cons] at h
          rcases h with h | h
          · exact absurd h.symm hp
          · exact h
        obtain ⟨v, hv⟩ := ih hk
        exact ⟨v, by simp [alookup, hp, hv]⟩

theorem mem_aset_elim {α : Type} {l : List (String × α)} {k : String} {v : α}
    {p : String × α} (h : p ∈ aset l k v) : p ∈ l ∨ p = (k, v) := by
  induction l with
  | nil =>
      simp only [aset, List.mem_singleton] at h
      exact Or.inr h
  | cons q rest ih =>
      by_cases hq : q.1 = k
      · simp only [aset, if_pos hq, List.mem_cons] at h
        rcases h with h | h
        · exact Or.inr h
        · exact Or.inl (List.mem_cons_of_mem _ h)
      · simp only [aset, if_neg hq, List.mem_cons] at h
        rcases h with h | h
        · exact Or.inl (h ▸ List.mem_cons_self _ _)
        · rcases ih h with h' | h'
          · exact Or.inl (List.mem_cons_of_mem _ h')
          · exact Or.inr h'

theorem mem_amerge_elim {α : Type} {b a : List (String × α)} {p : String × α}
    (h : p ∈ amerge a b) : p ∈ a ∨ p ∈ b := by
  induction b generalizing a with
  | nil => exact Or.inl h
  | cons q rest ih =>
      have h' := ih (a := aset a q.1 q.2) h
      rcases h' with h' | h'
      · rcases mem_aset_elim h' with h'' | h''
        · exact Or.inl h''
        · exact Or.inr (by simp [h''])
      · exact Or.inr (List.mem_cons_of_mem _ h')

theorem mem_keys_amerge {α : Type} (b a : List (String × α)) (k : String) :
    k ∈ keys (amerge a b) ↔ k ∈ keys a ∨ k ∈ keys b := by
  induction b generalizing a with
  | nil => simp [amerge, keys]
  | cons q rest ih =>
      show k ∈ keys (amerge (aset a q.1 q.2) rest) ↔ _
      rw [ih, mem_keys_aset, keys_cons, List.mem_cons]
      tauto

theorem mapME_ok_length {a b : Type} (g : a → Except Err b) :
    ∀ (l : List a) (ys : List b), mapME g l = Except.ok ys → ys.length = l.length := by
  intro l
  induction l with
  | nil =>
      intro ys h
      simp only [mapME, Except.ok.injEq] at h
      simp [← h]
  | cons x rest ih =>
      intro ys h
      simp only [mapME] at h
      cases hx : g x with
      | error e => simp [hx, bind, Except.bind] at h
      | ok y =>
          simp only [hx, bind, Except.bind] at h
          cases hr : mapME g rest with
          | error e => simp [hr] at h
          | ok ys' =>
              simp only [hr, Except.ok.injEq] at h
              subst h
              simp [ih ys' hr]

theorem foldlM_ok_forall {α β : Type} (g : β → α → Except Err β) :
    ∀ (l : List α) (init out : β), l.foldlM g init = Except.ok out →
      ∀ x ∈ l, ∃ acc acc', g acc x = Except.ok acc' := by
  intro l
  induction l with
  | nil => intro init out _ x hx; simp at hx
  | cons p rest ih =>
      intro init out h x hx
      rw [List.foldlM_cons] at h
      cases hg : g init p with
      | error e => simp [hg, bind, Except.bind] at h
      | ok acc1 =>
          simp only [hg, bind, Except.bind] at h
          rcases List.mem_cons.mp hx with hx | hx
          · exact ⟨init, acc1, hx ▸ hg⟩
          · exact ih acc1 out h x hx

/-! ### Claim theorems -/

/-- Claim C5: for every request issued through the connection, a transport
failure whose payload carries an `errors` list fails as a wire error
(`JsonApiException`) holding the HTTP status and that list, while any
failure without such a payload (no response, or no truthy `errors`
member) propagates unchanged, and a transport success is returned as-is. -/
theorem c5_wire_error_wrapping (tr : Response) (es : List Val) :
    (getOpt tr.rdata "errors" = Val.vlist es →
      apiRequest (.failure (some tr)) = .error (.wire tr.status (Val.vlist es))) ∧
    (truthy (getOpt tr.rdata "errors") = false →
      apiRequest (.failure (some tr)) = .error (.transport (some tr))) ∧
    apiRequest (.failure none) = .error (.transport none) ∧
    (∀ r, apiRequest (.success r) = .ok r) := by
  have herrs : (match tr.rdata with
      | Val.vnull => Val.vundef
      | Val.vundef => Val.vundef
      | d => getOpt d "errors") = getOpt tr.rdata "errors" := by
    cases tr.rdata <;> rfl
  refine ⟨?_, ?_, rfl, fun r => rfl⟩
  · intro h
    simp only [apiRequest, herrs, h]
    rfl
  · intro h
    simp only [apiRequest, herrs, h]
    rfl

/-- Witness for C5 at a concrete failing response carrying an errors list. -/
theorem c5_wire_error_wrapping_witness :
    getOpt (Val.vobj [("errors", Val.vlist [Val.vstr "conflict"])]) "errors" =
      Val.vlist [Val.vstr "conflict"] ∧
    apiRequest (.failure (some
      { status := some 409, rdata := Val.vobj [("errors", Val.vlist [Val.vstr "conflict"])] })) =
      .error (.wire (some 409) (Val.vlist [Val.vstr "conflict"])) :=
  ⟨rfl, (c5_wire_error_wrapping
    { status := some 409, rdata := Val.vobj [("errors", Val.vlist [Val.vstr "conflict"])] }
    [Val.vstr "conflict"]).1 rfl⟩

/-- Claim C9: on every resource, `set(key, null)` for a declared
relationship key always throws — `_setRelated` itself accepts the null
and nulls out both the relationships and related entries, but `set` then
calls `asRelationship` on the nulled related value, a `TypeError` —
instead of returning with the relationship cleared. -/
theorem c9_set_null_throws (f : Nat) (st : RState) (key : String)
    (h : key ∈ keys st.relationships) :
    rset (f + 1) st key Val.vnull = .error Err.typeErr ∧
    setRelated (f + 1) st key Val.vnull [] =
      .ok (RState.mk st.type st.id st.attributes
        (aset st.relationships key Val.vnull) (aset st.related key Val.vnull)
        st.links st.redirect) := by
  have hsr : setRelated (f + 1) st key Val.vnull [] =
      .ok (RState.mk st.type st.id st.attributes
        (aset st.relationships key Val.vnull) (aset st.related key Val.vnull)
        st.links st.redirect) := by
    rfl
  refine ⟨?_, hsr⟩
  simp only [rset, if_pos h, hsr, bind, Except.bind, RState.related,
    alookup_aset_self]

/-- Witness for C9 at a concrete resource with a declared `parent`
relationship. -/
theorem c9_set_null_throws_witness :
    "parent" ∈ keys (RState.mk (Val.vstr "children") Val.vnull []
      [("parent", Val.vobj [("data", Val.vobj [("type", Val.vstr "parents"), ("id", Val.vstr "1")])])]
      [("parent", Val.vres (RState.mk (Val.vstr "parents") (Val.vstr "1") [] [] [] [] Val.vnull))]
      [] Val.vnull).relationships ∧
    rset 4 (RState.mk (Val.vstr "children") Val.vnull []
      [("parent", Val.vobj [("data", Val.vobj [("type", Val.vstr "parents"), ("id", Val.vstr "1")])])]
      [("parent", Val.vres (RState.mk (Val.vstr "parents") (Val.vstr "1") [] [] [] [] Val.vnull))]
      [] Val.vnull) "parent" Val.vnull = .error Err.typeErr :=
  ⟨by decide, (c9_set_null_throws 3 _ "parent" (by decide)).1⟩

end JApi

namespace JApi

/-- Claim C7: a delete issues a DELETE against the item url and sets only
`id` to null, leaving attributes, relationships, related and links
untouched, so that a subsequent `save()` routes to the create path (a
POST against the collection url). -/
theorem c7_delete_clears_only_id (st : RState) :
    (deleteOp st).1 = { method := "delete", url := getItemUrl st } ∧
    (deleteOp st).2.id = Val.vnull ∧
    (deleteOp st).2.attributes = st.attributes ∧
    (deleteOp st).2.relationships = st.relationships ∧
    (deleteOp st).2.related = st.related ∧
    (deleteOp st).2.links = st.links ∧
    (deleteOp st).2.type = st.type ∧
    (∀ f resp req st2,
      save f (deleteOp st).2 Val.vnull Val.vnull resp = .ok (req, st2) →
      req.method = "post" ∧ req.url = getCollectionUrl st.type) := by
  refine ⟨rfl, rfl, rfl, rfl, rfl, rfl, rfl, ?_⟩
  intro f resp req st2 h
  have hsave : save f (deleteOp st).2 Val.vnull Val.vnull resp =
      saveNew f (deleteOp st).2 [] resp := rfl
  rw [hsave] at h
  unfold saveNew at h
  cases hg : mkSaveNewRequest f (deleteOp st).2 [] with
  | error e => rw [hg] at h; exact absurd h (by simp [bind, Except.bind])
  | ok rq =>
      rw [hg] at h
      unfold mkSaveNewRequest at hg
      cases hgen : generateDataForSaving f (deleteOp st).2
          (defaultFields (deleteOp st).2 []) with
      | error e => rw [hgen] at hg; exact absurd hg (by simp [bind, Except.bind])
      | ok g =>
          rw [hgen] at hg
          simp only [bind, Except.bind, Except.ok.injEq] at hg
          cases hps : postSave f (deleteOp st).2 resp with
          | error e => rw [hps] at h; exact absurd h (by simp [bind, Except.bind])
          | ok s2 =>
              rw [hps] at h
              simp only [bind, Except.bind, pure, Except.pure, Except.ok.injEq] at h
              have hreq : rq = req := congrArg Prod.fst h
              subst hreq
              rw [← hg]
              exact ⟨rfl, rfl⟩

end JApi

namespace JApi

/-- Witness for C7: a concrete persisted child is deleted and re-saved as
a create. -/
theorem c7_delete_clears_only_id_witness :
    (deleteOp (RState.mk (Val.vstr "children") (Val.vstr "1")
        [("name", Val.vstr "John")] [] [] [] Val.vnull)).2.attributes =
      [("name", Val.vstr "John")] ∧
    (Request.mk "post" (Val.vstr "/children") Val.vnull
      (Val.vobj [("data", Val.vobj [("type", Val.vstr "children"),
        ("attributes", Val.vobj [("name", Val.vstr "John")])])])).method = "post" ∧
    (Request.mk "post" (Val.vstr "/children") Val.vnull
      (Val.vobj [("data", Val.vobj [("type", Val.vstr "children"),
        ("attributes", Val.vobj [("name", Val.vstr "John")])])])).url =
      getCollectionUrl (Val.vstr "children") := by
  have h := c7_delete_clears_only_id (RState.mk (Val.vstr "children") (Val.vstr "1")
    [("name", Val.vstr "John")] [] [] [] Val.vnull)
  refine ⟨h.2.2.1, ?_, ?_⟩
  · exact (h.2.2.2.2.2.2.2 6
      { rdata := Val.vobj [("data", Val.vobj [("id", Val.vstr "2"),
          ("attributes", Val.vobj [("name", Val.vstr "John")])])] }
      (Request.mk "post" (Val.vstr "/children") Val.vnull
        (Val.vobj [("data", Val.vobj [("type", Val.vstr "children"),
          ("attributes", Val.vobj [("name", Val.vstr "John")])])]))
      (RState.mk (Val.vstr "children") (Val.vstr "2")
        [("name", Val.vstr "John")] [] [] [] Val.vnull) (by rfl)).1
  · exact (h.2.2.2.2.2.2.2 6
      { rdata := Val.vobj [("data", Val.vobj [("id", Val.vstr "2"),
          ("attributes", Val.vobj [("name", Val.vstr "John")])])] }
      (Request.mk "post" (Val.vstr "/children") Val.vnull
        (Val.vobj [("data", Val.vobj [("type", Val.vstr "children"),
          ("attributes", Val.vobj [("name", Val.vstr "John")])])]))
      (RState.mk (Val.vstr "children") (Val.vstr "2")
        [("name", Val.vstr "John")] [] [] [] Val.vnull) (by rfl)).2

end JApi

namespace JApi

/-- Every success of the network branch of `fetch` issues the GET against
the collection's url/params and stores the parsed rows as `data`. -/
theorem colFetchRun_ok_shape (f : Nat) (c : CState) (resp : Response)
    {oreq : Option Request} {c' : CState}
    (h : colFetchRun f c resp = .ok (oreq, c')) :
    oreq = some { method := "get", url := c.url, params := c.params } ∧
    ∃ body inc rows parsed,
      colBody resp.rdata = .ok body ∧ colIncMap body = .ok inc ∧
      colRows body = .ok rows ∧ mapME (colParseRow f inc) rows = .ok parsed ∧
      c'.url = c.url ∧ c'.params = c.params ∧
      c'.data = Val.vlist (parsed.map Val.vres) := by
  unfold colFetchRun at h
  cases hb : colBody resp.rdata with
  | error e => rw [hb] at h; exact absurd h (by simp [bind, Except.bind])
  | ok body =>
      rw [hb] at h
      simp only [bind, Except.bind] at h
      cases hi : colIncMap body with
      | error e => rw [hi] at h; exact absurd h (by simp)
      | ok inc =>
          rw [hi] at h
          simp only [bind, Except.bind] at h
          cases hr : colRows body with
          | error e => rw [hr] at h; exact absurd h (by simp)
          | ok rows =>
              rw [hr] at h
              simp only [bind, Except.bind] at h
              cases hp : mapME (colParseRow f inc) rows with
              | error e => rw [hp] at h; exact absurd h (by simp)
              | ok parsed =>
                  rw [hp] at h
                  simp only [Except.ok.injEq] at h
                  injection h with h1 h2
                  subst h1
                  subst h2
                  exact ⟨rfl, body, inc, rows, parsed, rfl, hi, hr, hp, rfl, rfl, rfl⟩

/-- Claim C8: per Collection instance, `fetch` performs at most one
network call: on an instance whose `data` is already populated (an
array) it is a no-op, issuing no request and leaving `data`, `next` and
`previous` unchanged; on a fresh instance (`data` null) a successful
fetch issues the GET and populates `data` with an array, after which any
further fetch on the resulting instance is again a no-op. -/
theorem c8_fetch_idempotent (f : Nat) (c : CState) (resp resp2 : Response) :
    (∀ xs, c.data = Val.vlist xs → colFetch f c resp = .ok (none, c)) ∧
    (c.data = Val.vnull → ∀ oreq c', colFetch f c resp = .ok (oreq, c') →
      oreq = some { method := "get", url := c.url, params := c.params } ∧
      (∃ ys, c'.data = Val.vlist ys) ∧
      colFetch f c' resp2 = .ok (none, c')) := by
  constructor
  · intro xs h
    unfold colFetch
    rw [h]
    rfl
  · intro hd oreq c' h
    have hrun : colFetch f c resp = colFetchRun f c resp := by
      unfold colFetch
      rw [hd]
      rfl
    rw [hrun] at h
    obtain ⟨hreq, body, inc, rows, parsed, _, _, _, _, _, _, hdata⟩ :=
      colFetchRun_ok_shape f c resp h
    refine ⟨hreq, ⟨parsed.map Val.vres, hdata⟩, ?_⟩
    unfold colFetch
    rw [hdata]
    rfl

/-- Witness for C8: a concrete fetched collection is left untouched by a
second fetch. -/
theorem c8_fetch_idempotent_witness :
    (CState.mk (Val.vstr "/items") Val.vnull (Val.vlist []) Val.vnull Val.vnull).data =
      Val.vlist [] ∧
    colFetch 3 (CState.mk (Val.vstr "/items") Val.vnull (Val.vlist []) Val.vnull Val.vnull)
      { rdata := Val.vnull } =
      .ok (none, CState.mk (Val.vstr "/items") Val.vnull (Val.vlist []) Val.vnull Val.vnull) :=
  ⟨rfl, (c8_fetch_idempotent 3
    (CState.mk (Val.vstr "/items") Val.vnull (Val.vlist []) Val.vnull Val.vnull)
    { rdata := Val.vnull } { rdata := Val.vnull }).1 [] rfl⟩

end JApi

namespace JApi

/-- Claim C4: `Collection.get(filters)` fetches the filtered collection
and requires exactly one result: with a zero-row response it fails with
the does-not-exist error, with more than one row it fails with the
multiple-results error carrying the row count, and with exactly one row
it returns that single parsed resource. -/
theorem c4_collection_get_cardinality (f : Nat) (c : CState)
    (filters : List (String × Val)) (resp : Response) (rs : List Val)
    (oreq : Option Request) (qs' : CState)
    (hrows : getOpt resp.rdata "data" = Val.vlist rs)
    (hfetch : colFetch f (colFilter c filters) resp = .ok (oreq, qs')) :
    (∃ ys : List RState, qs'.data = Val.vlist (ys.map Val.vres) ∧
      ys.length = rs.length) ∧
    (rs = [] → colGet f c filters resp = .error (.thrown "Does not exist")) ∧
    (1 < rs.length → colGet f c filters resp =
      .error (.thrown ("Multiple objects returned (" ++ toString rs.length ++ ")"))) ∧
    (∀ y, qs'.data = Val.vlist [y] → colGet f c filters resp = .ok (oreq, y)) := by
  have hguard : colFetch f (colFilter c filters) resp =
      colFetchRun f (colFilter c filters) resp := by
    unfold colFetch colFilter colExtra
    rfl
  rw [hguard] at hfetch
  obtain ⟨hreq, body, inc, rows, parsed, hb, hi, hr, hp, hu, hpar, hdata⟩ :=
    colFetchRun_ok_shape f (colFilter c filters) resp hfetch
  have hcb : body = resp.rdata := by
    cases hv : resp.rdata <;> rw [hv] at hb <;> unfold colBody at hb <;>
      simp only [Except.error.injEq, Except.ok.injEq] at hb <;>
      first
        | exact absurd hb (by simp)
        | exact hb.symm
  have hrseq : rows = rs := by
    rw [hcb] at hr
    unfold colRows at hr
    rw [hrows] at hr
    simp only [Except.ok.injEq] at hr
    exact hr.symm
  have hlen : parsed.length = rs.length := by
    rw [← hrseq]
    exact mapME_ok_length _ rows parsed hp
  have hget : colGet f c filters resp =
      (match qs'.data with
       | .vlist xs =>
          if xs.length = 0 then .error (.thrown "Does not exist")
          else if 1 < xs.length then
            .error (.thrown ("Multiple objects returned (" ++ toString xs.length ++ ")"))
          else .ok (oreq, xs.headD .vundef)
       | _ => .error .typeErr) := by
    unfold colGet
    simp only [hguard, hfetch, bind, Except.bind]
  refine ⟨⟨parsed, hdata, hlen⟩, ?_, ?_, ?_⟩
  · intro hnil
    subst hnil
    have : parsed = [] := List.length_eq_zero.mp hlen
    subst this
    rw [hget, hdata]
    rfl
  · intro hgt
    rw [hget, hdata]
    dsimp only
    rw [List.length_map, hlen]
    have hne : ¬ (rs.length = 0) := by omega
    simp only [if_neg hne, if_pos hgt]
  · intro y hy
    rw [hget, hy]
    rfl

/-- Witness for C4 at a concrete one-row response. -/
theorem c4_collection_get_cardinality_witness :
    getOpt (Val.vobj [("data", Val.vlist [Val.vobj [("type", Val.vstr "items"), ("id", Val.vstr "1")]])]) "data" =
      Val.vlist [Val.vobj [("type", Val.vstr "items"), ("id", Val.vstr "1")]] ∧
    colGet 4 (colNew (Val.vstr "/items")) [("name", Val.vstr "x")]
      { rdata := Val.vobj [("data", Val.vlist [Val.vobj [("type", Val.vstr "items"), ("id", Val.vstr "1")]])] } =
      .ok (some (Request.mk "get" (Val.vstr "/items")
          (Val.vobj [("filter[name]", Val.vstr "x")]) Val.vnull),
        Val.vres (RState.mk (Val.vstr "items") (Val.vstr "1") [] [] [] [] Val.vnull)) := by
  refine ⟨rfl, ?_⟩
  exact (c4_collection_get_cardinality 4 (colNew (Val.vstr "/items"))
    [("name", Val.vstr "x")]
    { rdata := Val.vobj [("data", Val.vlist [Val.vobj [("type", Val.vstr "items"), ("id", Val.vstr "1")]])] }
    [Val.vobj [("type", Val.vstr "items"), ("id", Val.vstr "1")]]
    (some (Request.mk "get" (Val.vstr "/items")
      (Val.vobj [("filter[name]", Val.vstr "x")]) Val.vnull))
    (CState.mk (Val.vstr "/items") (Val.vobj [("filter[name]", Val.vstr "x")])
      (Val.vlist [Val.vres (RState.mk (Val.vstr "items") (Val.vstr "1") [] [] [] [] Val.vnull)])
      Val.vnull Val.vnull)
    rfl (by rfl)).2.2.2
    (Val.vres (RState.mk (Val.vstr "items") (Val.vstr "1") [] [] [] [] Val.vnull)) rfl

end JApi

namespace JApi

/-- Claim C6: the static `get`: with `null` or a plain filter object it
delegates to `list().get(filter)`; with a literal id it constructs a stub
instance whose id is the argument and reloads it, issuing a GET against
the item url `/<type>/<id>` and, on a non-redirect response, returning an
instance populated (via `_overwrite`) from the response body's data. -/
theorem c6_static_get (f : Nat) (ty : Val) (includeArg : Option (List String))
    (resp : Response) :
    (staticGet f ty Val.vnull includeArg resp =
      .ok (.delegated (listCol ty) Val.vnull)) ∧
    (∀ kvs, staticGet f ty (Val.vobj kvs) includeArg resp =
      .ok (.delegated (listCol ty) (Val.vobj kvs))) ∧
    (∀ s g, staticGet (g + 1) ty (Val.vstr s) includeArg resp =
      (reload (g + 1) (RState.mk ty (Val.vstr s) [] [] [] [] Val.vnull)
          includeArg resp).map (fun p => GetResult.fetched p.1 p.2)) ∧
    (∀ s g (t : String) d r', ty = Val.vstr t →
      isRedirect resp = false →
      resp.rdata ≠ Val.vnull → resp.rdata ≠ Val.vundef →
      reloadData resp.rdata = .ok d →
      overwrite (g + 1) (RState.mk ty (Val.vstr s) [] [] [] [] Val.vnull) d = .ok r' →
      staticGet (g + 1) ty (Val.vstr s) includeArg resp =
        .ok (.fetched (Request.mk "get" (Val.vstr ("/" ++ t ++ "/" ++ s))
          (includeParams includeArg) Val.vnull) r')) := by
  have hdeleg1 : staticGet f ty Val.vnull includeArg resp =
      .ok (.delegated (listCol ty) Val.vnull) := rfl
  have hdeleg2 : ∀ kvs, staticGet f ty (Val.vobj kvs) includeArg resp =
      .ok (.delegated (listCol ty) (Val.vobj kvs)) := fun kvs => rfl
  have hlit : ∀ s g, staticGet (g + 1) ty (Val.vstr s) includeArg resp =
      (reload (g + 1) (RState.mk ty (Val.vstr s) [] [] [] [] Val.vnull)
          includeArg resp).map (fun p => GetResult.fetched p.1 p.2) := by
    intro s g
    cases hr : reload (g + 1) (RState.mk ty (Val.vstr s) [] [] [] [] Val.vnull)
        includeArg resp with
    | error e =>
        simp only [Except.map]
        show (do
          let st ← construct (g + 1) ty (.vobj [("id", Val.vstr s)])
          let p ← reload (g + 1) st includeArg resp
          .ok (GetResult.fetched p.1 p.2) : Except Err GetResult) = _
        have hc : construct (g + 1) ty (.vobj [("id", Val.vstr s)]) =
            .ok (RState.mk ty (Val.vstr s) [] [] [] [] Val.vnull) := rfl
        rw [hc]
        simp only [bind, Except.bind, hr]
    | ok p =>
        simp only [Except.map]
        show (do
          let st ← construct (g + 1) ty (.vobj [("id", Val.vstr s)])
          let p ← reload (g + 1) st includeArg resp
          .ok (GetResult.fetched p.1 p.2) : Except Err GetResult) = _
        have hc : construct (g + 1) ty (.vobj [("id", Val.vstr s)]) =
            .ok (RState.mk ty (Val.vstr s) [] [] [] [] Val.vnull) := rfl
        rw [hc]
        simp only [bind, Except.bind, hr]
  refine ⟨hdeleg1, hdeleg2, hlit, ?_⟩
  intro s g t d r' hty h3xx hn1 hn2 hrd hov
  rw [hlit s g]
  clear hdeleg1 hdeleg2 hlit
  subst hty
  have hreload : reload (g + 1) (RState.mk (Val.vstr t) (Val.vstr s) [] [] [] [] Val.vnull)
      includeArg resp =
      .ok (Request.mk "get" (Val.vstr ("/" ++ t ++ "/" ++ s))
        (includeParams includeArg) Val.vnull, r') := by
    have hurl : getItemUrl (RState.mk (Val.vstr t) (Val.vstr s) [] [] [] [] Val.vnull) =
        Val.vstr ("/" ++ t ++ "/" ++ s) := rfl
    unfold reload
    simp only [h3xx, Bool.false_eq_true, if_false, hurl]
    cases hv : resp.rdata with
    | vnull => exact absurd hv hn1
    | vundef => exact absurd hv hn2
    | vstr a =>
        rw [hv] at hrd
        simp only [hrd, bind, Except.bind, hov, Except.map]
    | vlist a =>
        rw [hv] at hrd
        simp only [hrd, bind, Except.bind, hov, Except.map]
    | vobj a =>
        rw [hv] at hrd
        simp only [hrd, bind, Except.bind, hov, Except.map]
    | vres a =>
        rw [hv] at hrd
        simp only [hrd, bind, Except.bind, hov, Except.map]
    | vcoll a =>
        rw [hv] at hrd
        simp only [hrd, bind, Except.bind, hov, Except.map]
  rw [hreload]
  rfl

/-- Witness for C6: a concrete literal-id get against a one-resource
response. -/
theorem c6_static_get_witness :
    isRedirect { rdata := Val.vobj [("data", Val.vobj [("id", Val.vstr "1"),
      ("attributes", Val.vobj [("name", Val.vstr "the item")])])] } = false ∧
    staticGet 5 (Val.vstr "items") (Val.vstr "1") none
      { rdata := Val.vobj [("data", Val.vobj [("id", Val.vstr "1"),
        ("attributes", Val.vobj [("name", Val.vstr "the item")])])] } =
      .ok (.fetched (Request.mk "get" (Val.vstr "/items/1") Val.vnull Val.vnull)
        (RState.mk (Val.vstr "items") (Val.vstr "1")
          [("name", Val.vstr "the item")] [] [] [] Val.vnull)) := by
  refine ⟨rfl, ?_⟩
  have h := (c6_static_get 5 (Val.vstr "items") none
    { rdata := Val.vobj [("data", Val.vobj [("id", Val.vstr "1"),
      ("attributes", Val.vobj [("name", Val.vstr "the item")])])] }).2.2.2
    "1" 4 "items"
    (Val.vobj [("id", Val.vstr "1"),
      ("attributes", Val.vobj [("name", Val.vstr "the item")])])
    (RState.mk (Val.vstr "items") (Val.vstr "1")
      [("name", Val.vstr "the item")] [] [] [] Val.vnull)
    rfl rfl (by simp) (by simp) rfl (by rfl)
  exact h

end JApi

namespace JApi

theorem alookup_eq_none {α : Type} {l : List (String × α)} {k : String}
    (h : k ∉ keys l) : alookup l k = none := by
  induction l with
  | nil => rfl
  | cons p rest ih =>
      simp only [keys, List.map_cons, List.mem_cons] at h
      push_neg at h
      simp only [alookup, if_neg (fun hh : p.1 = k => h.1 hh.symm)]
      exact ih h.2

/-- Every key of a bare resource identifier is `type` or `id`, and both
are present. -/
theorem ident_shape {kvs : List (String × Val)}
    (hi : isResourceIdentifier (Val.vobj kvs) = true) :
    "type" ∈ keys kvs ∧ "id" ∈ keys kvs ∧
    "data" ∉ keys kvs ∧ "links" ∉ keys kvs := by
  simp only [isResourceIdentifier, Bool.and_eq_true, decide_eq_true_eq,
    List.all_eq_true, Bool.or_eq_true] at hi
  obtain ⟨⟨h1, h2⟩, h3⟩ := hi
  refine ⟨h1, h2, ?_, ?_⟩
  · intro h
    rcases h3 _ h with h' | h' <;> simp at h'
  · intro h
    rcases h3 _ h with h' | h' <;> simp at h'

/-- A bare identifier and its `{data: identifier}` envelope normalize
identically through `_setRelated`. -/
theorem setRelated_ident_envelope (f : Nat) (st : RState) (name : String)
    (i : Val) (hi : isResourceIdentifier i = true) :
    setRelated f st name (Val.vobj [("data", i)]) [] =
      setRelated f st name i [] := by
  cases f with
  | zero => rfl
  | succ g =>
      obtain ⟨kvs, rfl⟩ : ∃ kvs, i = Val.vobj kvs := by
        cases i
        case vobj kvs2 => exact ⟨kvs2, rfl⟩
        all_goals simp [isResourceIdentifier] at hi
      obtain ⟨hty, hid, hdata, hlinks⟩ := ident_shape hi
      have hgd : getOpt (Val.vobj kvs) "data" = Val.vundef := by
        simp [getOpt, alookup_eq_none hdata]
      have hhd : hasData (Val.vobj kvs) = false := by
        simp [hasData, hdata]
      have hhl : hasLinks (Val.vobj kvs) = false := by
        simp [hasLinks, hlinks]
      have e1 : truthy (Val.vobj [("data", Val.vobj kvs)]) = true := rfl
      have e2 : isList (Val.vobj [("data", Val.vobj kvs)]) = false := rfl
      have e3 : isObject (Val.vobj [("data", Val.vobj kvs)]) = true := rfl
      have e4 : getOpt (Val.vobj [("data", Val.vobj kvs)]) "data" = Val.vobj kvs := rfl
      have e5 : isList (Val.vobj kvs) = false := rfl
      have e6 : hasLinks (Val.vobj [("data", Val.vobj kvs)]) = false := rfl
      have e7 : hasData (Val.vobj [("data", Val.vobj kvs)]) = true := rfl
      have e8 : truthy (Val.vobj kvs) = true := rfl
      have e9 : isObject (Val.vobj kvs) = true := rfl
      have e10 : isList Val.vundef = false := rfl
      show setRelated (g + 1) st name (Val.vobj [("data", Val.vobj kvs)]) [] = _
      simp only [setRelated, e1, e2, e3, e4, e5, e6, e7, e8, e9, e10, hgd, hhd,
        hhl, Bool.not_false, Bool.false_or, Bool.true_and, Bool.false_and,
        Bool.and_false, Bool.and_true, Bool.or_false, Bool.not_true, if_true,
        if_false, Bool.false_eq_true, Bool.true_eq_false]
      rfl

/-- Each of the claim's relationship shapes is classified as a
relationship by `_overwrite`'s prop classification. -/
theorem classify_of_rel_shape (V : Val)
    (h : isResource V = true ∨ isResourceIdentifier V = true ∨
      (∃ i, V = Val.vobj [("data", i)] ∧ isResourceIdentifier i = true)) :
    classify V = true := by
  rcases h with h | h | ⟨i, rfl, hi⟩
  · simp [classify, h]
  · simp [classify, h]
  · have hgo : getOpt (Val.vobj [("data", i)]) "data" = i := rfl
    have hd : hasData (Val.vobj [("data", i)]) = true := rfl
    have hl : hasLinks (Val.vobj [("data", i)]) = false := rfl
    have ho : isObject (Val.vobj [("data", i)]) = true := rfl
    simp [classify, hgo, hd, hl, ho, hi]

/-- Claim C2: construction from flattened top-level properties is
identical to construction from the canonical nested
`{attributes, relationships}` form: any non-relationship-shaped
attribute value together with a relationship-shaped value (a `Resource`,
a bare `{type, id}` identifier, or a `{data: identifier}` envelope)
yields the same state either way, and a bare identifier may equivalently
be supplied flattened or wrapped in its `{data: identifier}` envelope
under `relationships`. -/
theorem c2_flattened_equals_nested (ak rk : String) (v V : Val)
    (hak : ak ∉ overwriteKeys) (hrk : rk ∉ overwriteKeys) (_hne : ak ≠ rk)
    (hv : classify v = false)
    (hV : isResource V = true ∨ isResourceIdentifier V = true ∨
      (∃ i, V = Val.vobj [("data", i)] ∧ isResourceIdentifier i = true)) :
    (∀ f ty, construct f ty (.vobj [(ak, v), (rk, V)]) =
      construct f ty (.vobj [("attributes", .vobj [(ak, v)]),
        ("relationships", .vobj [(rk, V)])])) ∧
    (∀ f ty i, isResourceIdentifier i = true →
      construct f ty (.vobj [(ak, v), (rk, i)]) =
      construct f ty (.vobj [("attributes", .vobj [(ak, v)]),
        ("relationships", .vobj [(rk, Val.vobj [("data", i)])])])) := by
  simp only [overwriteKeys, List.mem_cons, List.mem_singleton,
    List.not_mem_nil, or_false] at hak hrk
  push_neg at hak hrk
  obtain ⟨ha1, ha2, ha3, ha4, ha5, ha6, ha7⟩ := hak
  obtain ⟨hb1, hb2, hb3, hb4, hb5, hb6, hb7⟩ := hrk
  have hflat : ∀ (f : Nat) (ty : Val) (W : Val), classify W = true →
      construct (f + 1) ty (.vobj [(ak, v), (rk, W)]) =
      List.foldlM (fun acc p => setRelated f acc p.1 p.2 []) (RState.mk ty Val.vnull [(ak, v)] [] [] [] Val.vnull) [(rk, W)] := by
    intro f ty W hW
    have look : ∀ k, ak ≠ k → rk ≠ k → alookup [(ak, v), (rk, W)] k = none := by
      intro k h1 h2
      simp [alookup, if_neg h1, if_neg h2]
    have hfil : List.filter (fun p => decide (p.1 ∉ overwriteKeys)) [(ak, v), (rk, W)] = [(ak, v), (rk, W)] := by
      have hda : (decide (ak ∉ overwriteKeys)) = true := by
        simp [overwriteKeys, ha1, ha2, ha3, ha4, ha5, ha6, ha7]
      have hdb : (decide (rk ∉ overwriteKeys)) = true := by
        simp [overwriteKeys, hb1, hb2, hb3, hb4, hb5, hb6, hb7]
      simp [List.filter, hda, hdb]
    unfold construct
    simp only [overwrite]
    simp only [destr, objDestr, listDestr,
      look "id" ha1 hb1, look "attributes" ha2 hb2,
      look "relationships" ha3 hb3, look "links" ha4 hb4,
      look "redirect" ha5 hb5, look "type" ha6 hb6,
      look "included" ha7 hb7]
    simp only [bind, Except.bind, truthy, Bool.false_and, Bool.false_eq_true,
      if_false, hfil, List.foldl, hv, hW, if_true]
    rfl
  have hnest : ∀ (f : Nat) (ty : Val) (W : Val),
      construct (f + 1) ty (.vobj [("attributes", .vobj [(ak, v)]),
        ("relationships", .vobj [(rk, W)])]) =
      List.foldlM (fun acc p => setRelated f acc p.1 p.2 []) (RState.mk ty Val.vnull [(ak, v)] [] [] [] Val.vnull) [(rk, W)] := by
    intro f ty W
    rfl
  constructor
  · intro f ty
    cases f with
    | zero => rfl
    | succ g => rw [hflat g ty V (classify_of_rel_shape V hV), hnest g ty V]
  · intro f ty i hi
    cases f with
    | zero => rfl
    | succ g =>
        rw [hflat g ty i (classify_of_rel_shape i (Or.inr (Or.inl hi))),
          hnest g ty (Val.vobj [("data", i)])]
        simp only [List.foldlM_cons, List.foldlM_nil,
          setRelated_ident_envelope g _ rk i hi]

set_option maxHeartbeats 1000000 in
/-- Witness for C2 at the spec's own example: a `name` attribute with a
`parent` identifier. -/
theorem c2_flattened_equals_nested_witness :
    ("name" ∉ overwriteKeys) ∧
    construct 5 (Val.vstr "children")
      (.vobj [("name", Val.vstr "x"),
        ("parent", Val.vobj [("type", Val.vstr "parents"), ("id", Val.vstr "1")])]) =
    construct 5 (Val.vstr "children")
      (.vobj [("attributes", .vobj [("name", Val.vstr "x")]),
        ("relationships", .vobj [("parent", Val.vobj [("data",
          Val.vobj [("type", Val.vstr "parents"), ("id", Val.vstr "1")])])])]) := by
  refine ⟨by decide, ?_⟩
  exact (c2_flattened_equals_nested "name" "parent" (Val.vstr "x")
    (Val.vobj [("type", Val.vstr "parents"), ("id", Val.vstr "1")])
    (by decide) (by decide) (by decide) (by decide)
    (Or.inr (Or.inl (by decide)))).2 5 (Val.vstr "children")
    (Val.vobj [("type", Val.vstr "parents"), ("id", Val.vstr "1")]) (by decide)

end JApi

namespace JApi

theorem accessible_ok {v w : Val} (h : accessible v = .ok w) :
    w = v ∧ nullish v = false := by
  unfold accessible at h
  by_cases hn : nullish v = true
  · rw [if_pos hn] at h
    exact absurd h (by simp)
  · rw [if_neg hn] at h
    simp only [Except.ok.injEq] at h
    exact ⟨h.symm, by simpa using hn⟩

theorem accessible_nullish {v : Val} (h : nullish v = true) :
    accessible v = .error Err.typeErr := by
  unfold accessible
  rw [if_pos h]

theorem accessible_not_nullish {v : Val} (h : nullish v = false) :
    accessible v = .ok v := by
  unfold accessible
  rw [if_neg (by simp [h])]

/-- A successful `_postSave` reconciliation step certifies its whole
`data.relationships[name].data` access chain. -/
theorem postSaveStep_ok_chain (f : Nat) (dataV : Val)
    (acc acc' : List (String × Val)) (p : String × Val)
    (h : postSaveStep f dataV acc p = .ok acc') :
    nullish p.2 = false ∧ nullish dataV = false ∧
    nullish (getOpt dataV "relationships") = false ∧
    nullish (getOpt (getOpt dataV "relationships") p.1) = false ∧
    nullish (getOpt (getOpt (getOpt dataV "relationships") p.1) "data") = false := by
  unfold postSaveStep at h
  cases h1 : accessible p.2 with
  | error e => rw [h1] at h; exact absurd h (by simp [bind, Except.bind])
  | ok pv =>
      rw [h1] at h
      simp only [bind, Except.bind] at h
      obtain ⟨rfl, hn1⟩ := accessible_ok h1
      cases h2 : accessible dataV with
      | error e => rw [h2] at h; exact absurd h (by simp)
      | ok d =>
          rw [h2] at h
          dsimp only at h
          obtain ⟨rfl, hn2⟩ := accessible_ok h2
          cases h3 : accessible (getOpt d "relationships") with
          | error e => rw [h3] at h; exact absurd h (by simp)
          | ok r =>
              rw [h3] at h
              dsimp only at h
              obtain ⟨rfl, hn3⟩ := accessible_ok h3
              cases h4 : accessible (getOpt (getOpt d "relationships") p.1) with
              | error e => rw [h4] at h; exact absurd h (by simp)
              | ok e' =>
                  rw [h4] at h
                  dsimp only at h
                  obtain ⟨rfl, hn4⟩ := accessible_ok h4
                  cases h5 : accessible
                      (getOpt (getOpt (getOpt d "relationships") p.1) "data") with
                  | error e => rw [h5] at h; exact absurd h (by simp)
                  | ok d2 =>
                      obtain ⟨rfl, hn5⟩ := accessible_ok h5
                      exact ⟨hn1, hn2, hn3, hn4, hn5⟩

/-- A reconciliation step whose `data.relationships` access chain dies at
the relationships member throws the `TypeError`. -/
theorem postSaveStep_err (f : Nat) (dataV : Val) (acc : List (String × Val))
    (p : String × Val) (hp : nullish p.2 = false)
    (hr : nullish (getOpt dataV "relationships") = true) :
    postSaveStep f dataV acc p = .error Err.typeErr := by
  unfold postSaveStep
  rw [accessible_not_nullish hp]
  simp only [bind, Except.bind]
  by_cases hd : nullish dataV = true
  · rw [accessible_nullish hd]
  · rw [accessible_not_nullish (by simpa using hd)]
    dsimp only
    rw [accessible_nullish hr]

/-- Claim C10: `_postSave` reconciliation (run after the save request has
already been issued) requires, for every resolved entry of `related`, a
usable `data.relationships[name].data` chain in the response: if the
response's data lacks a usable `relationships` member while `related` has
a resolved entry, `_postSave` throws the `TypeError` (so the instance is
not re-seeded); conversely a successful `_postSave` certifies that every
resolved field has a relationships entry whose `data` member is present
and non-null; and `_saveExisting` propagates the throw even though its
PATCH request was already built. -/
theorem c10_post_save_needs_relationships (f : Nat) (st : RState)
    (resp : Response) :
    (∀ name v rest, st.related = (name, v) :: rest →
      nullish v = false →
      nullish (getOpt (getOpt resp.rdata "data") "relationships") = true →
      postSave f st resp = .error Err.typeErr) ∧
    (∀ st', postSave f st resp = .ok st' →
      ∀ p ∈ st.related,
        nullish (getOpt resp.rdata "data") = false ∧
        nullish (getOpt (getOpt resp.rdata "data") "relationships") = false ∧
        nullish (getOpt (getOpt (getOpt resp.rdata "data") "relationships") p.1) = false ∧
        nullish (getOpt (getOpt (getOpt (getOpt resp.rdata "data") "relationships") p.1) "data") = false) ∧
    (∀ fields req e, mkSaveExistingRequest f st fields = .ok req →
      postSave f st resp = .error e →
      saveExisting f st fields resp = .error e) := by
  refine ⟨?_, ?_, ?_⟩
  · intro name v rest hrel hv hr
    unfold postSave
    by_cases hb : nullish resp.rdata = true
    · rw [accessible_nullish hb]
      rfl
    · rw [accessible_not_nullish (by simpa using hb)]
      simp only [bind, Except.bind]
      rw [hrel, List.foldlM_cons]
      rw [postSaveStep_err f (getOpt resp.rdata "data") _ (name, v) hv hr]
      rfl
  · intro st' h p hp
    unfold postSave at h
    cases hb : accessible resp.rdata with
    | error e => rw [hb] at h; exact absurd h (by simp [bind, Except.bind])
    | ok b =>
        rw [hb] at h
        simp only [bind, Except.bind] at h
        obtain ⟨rfl, hnb⟩ := accessible_ok hb
        cases hf : st.related.foldlM (postSaveStep f (getOpt resp.rdata "data"))
            st.related with
        | error e => rw [hf] at h; exact absurd h (by simp)
        | ok related' =>
            obtain ⟨acc, acc', hstep⟩ :=
              foldlM_ok_forall (postSaveStep f (getOpt resp.rdata "data"))
                st.related st.related related' hf p hp
            obtain ⟨_, h2, h3, h4, h5⟩ :=
              postSaveStep_ok_chain f (getOpt resp.rdata "data") acc acc' p hstep
            exact ⟨h2, h3, h4, h5⟩
  · intro fields req e hreq hps
    unfold saveExisting
    rw [hreq, hps]
    rfl

/-- Witness for C10: a resolved `parent` entry with a response whose data
has no `relationships` member makes the reconciliation throw. -/
theorem c10_post_save_needs_relationships_witness :
    (RState.mk (Val.vstr "children") (Val.vstr "1") []
      [("parent", Val.vobj [("data", Val.vobj [("type", Val.vstr "parents"), ("id", Val.vstr "2")])])]
      [("parent", Val.vres (RState.mk (Val.vstr "parents") (Val.vstr "2") [] [] [] [] Val.vnull))]
      [] Val.vnull).related =
      [("parent", Val.vres (RState.mk (Val.vstr "parents") (Val.vstr "2") [] [] [] [] Val.vnull))] ∧
    postSave 3 (RState.mk (Val.vstr "children") (Val.vstr "1") []
      [("parent", Val.vobj [("data", Val.vobj [("type", Val.vstr "parents"), ("id", Val.vstr "2")])])]
      [("parent", Val.vres (RState.mk (Val.vstr "parents") (Val.vstr "2") [] [] [] [] Val.vnull))]
      [] Val.vnull)
      { rdata := Val.vobj [("data", Val.vobj [("id", Val.vstr "1"),
        ("attributes", Val.vobj [("name", Val.vstr "Bill")])])] } =
      .error Err.typeErr := by
  refine ⟨rfl, ?_⟩
  exact (c10_post_save_needs_relationships 3
    (RState.mk (Val.vstr "children") (Val.vstr "1") []
      [("parent", Val.vobj [("data", Val.vobj [("type", Val.vstr "parents"), ("id", Val.vstr "2")])])]
      [("parent", Val.vres (RState.mk (Val.vstr "parents") (Val.vstr "2") [] [] [] [] Val.vnull))]
      [] Val.vnull)
    { rdata := Val.vobj [("data", Val.vobj [("id", Val.vstr "1"),
      ("attributes", Val.vobj [("name", Val.vstr "Bill")])])] }).1
    "parent" (Val.vres (RState.mk (Val.vstr "parents") (Val.vstr "2") [] [] [] [] Val.vnull))
    [] rfl rfl rfl

end JApi

namespace JApi

/-- Every successful `_setRelated` call writes the named relationship
entry, touches `related` at most at that same name, and leaves every
other field of the resource untouched. -/
theorem setRelated_ok_shape (f : Nat) (st : RState) (name : String)
    (value : Val) (incMap : List (String × RState)) (st' : RState)
    (h : setRelated f st name value incMap = .ok st') :
    st'.type = st.type ∧ st'.id = st.id ∧ st'.attributes = st.attributes ∧
    st'.links = st.links ∧ st'.redirect = st.redirect ∧
    (∃ rv, st'.relationships = aset st.relationships name rv) ∧
    (st'.related = st.related ∨ ∃ dv, st'.related = aset st.related name dv) := by
  cases f with
  | zero => exact absurd h (by simp [setRelated])
  | succ g =>
      rw [show setRelated (g+1) = setRelated (g+1) from rfl] at h
      simp only [setRelated] at h
      simp only [bind, Except.bind] at h
      repeat' split at h
      all_goals try simp only [Except.ok.injEq, Except.error.injEq,
        reduceCtorEq] at h
      all_goals subst h
      all_goals exact ⟨rfl, rfl, rfl, rfl, rfl, ⟨_, rfl⟩,
        by first | exact Or.inl rfl | exact Or.inr ⟨_, rfl⟩⟩

/-- Deleting one key looks up the others unchanged. -/
theorem alookup_adelete_ne {α : Type} (l : List (String × α)) (k k2 : String)
    (h : k2 ≠ k) : alookup (adelete l k) k2 = alookup l k2 := by
  induction l with
  | nil => rfl
  | cons p rest ih =>
      by_cases hp : p.1 = k
      · have : adelete (p :: rest) k = adelete rest k := by
          simp [adelete, List.filter, hp]
        rw [this, ih]
        have : ¬ p.1 = k2 := fun hc => h (hc ▸ hp)
        simp [alookup, this]
      · have : adelete (p :: rest) k = p :: adelete rest k := by
          simp [adelete, List.filter, hp]
        rw [this]
        by_cases hq : p.1 = k2
        · simp [alookup, hq]
        · simp [alookup, hq, ih]

/-- `JsonApi.new` on a bare resource identifier always succeeds, giving a
stub carrying just the identifier (no attributes, no relationships). -/
theorem apiNew_ident (f : Nat) (kvs : List (String × Val))
    (hi : isResourceIdentifier (Val.vobj kvs) = true) :
    apiNew (f + 2) (Val.vobj kvs) =
      .ok (RState.mk ((alookup kvs "type").getD .vundef)
        (destr (adelete kvs "type") "id" .vnull) [] [] [] [] .vnull) := by
  have hall : ∀ k ∈ keys kvs, k = "type" ∨ k = "id" := by
    simp only [isResourceIdentifier, Bool.and_eq_true, List.all_eq_true,
      decide_eq_true_eq, Bool.or_eq_true] at hi
    exact fun k hk => hi.2 k hk
  have hk2 : ∀ k ∈ keys (adelete kvs "type"), k = "id" := by
    intro k hk
    simp only [keys, adelete, List.mem_map] at hk
    obtain ⟨p, hp, rfl⟩ := hk
    rw [List.mem_filter] at hp
    rcases hall p.1 (List.mem_map_of_mem Prod.fst hp.1) with h1 | h1
    · exact absurd h1 (by simpa using hp.2)
    · exact h1
  have hnone : ∀ s, s ≠ "id" → alookup (adelete kvs "type") s = none := by
    intro s hs
    exact alookup_eq_none (fun hmem => hs (hk2 s hmem))
  have hprops : ∀ (P : String × Val → Bool), (∀ q, q.1 = "id" → P q = false) →
      (adelete kvs "type").filter P = [] := by
    intro P hP
    rw [List.filter_eq_nil_iff]
    intro p hp
    have h1 : p.1 = "id" :=
      hk2 p.1 (List.mem_map_of_mem Prod.fst hp)
    simp [hP p h1]
  have e2 : f + 2 = Nat.succ (f + 1) := rfl
  rw [e2]
  simp only [apiNew]
  simp only [overwrite]
  simp only [destr, objDestr, listDestr,
    hnone "attributes" (by decide), hnone "relationships" (by decide),
    hnone "links" (by decide), hnone "included" (by decide),
    hnone "type" (by decide), hnone "redirect" (by decide)]
  simp only [truthy, Bool.false_and, Bool.and_eq_true, if_neg, reduceIte,
    bind, Except.bind]
  rw [hprops _ (fun q hq => by simp [hq, overwriteKeys])]
  simp only [emptyR, List.foldl_nil, List.filter_nil, List.foldlM_nil]
  rfl

/-- `_setRelated` succeeds on every wire-shaped relationship value and on
every resolved-singular related value. -/
theorem setRelated_settable_ok (f : Nat) (st : RState) (name : String)
    (v : Val) (incMap : List (String × RState))
    (hv : relWireOk v = true ∨ relatedResolved v = true) :
    ∃ st2, setRelated (f + 3) st name v incMap = .ok st2 := by
  have e3 : f + 3 = Nat.succ (f + 2) := rfl
  cases v with
  | vnull => exact ⟨_, by rw [e3]; rfl⟩
  | vres r => exact ⟨_, by rw [e3]; rfl⟩
  | vundef => simp [relWireOk, relatedResolved] at hv
  | vstr s => simp [relWireOk, relatedResolved] at hv
  | vlist xs => simp [relWireOk, relatedResolved] at hv
  | vcoll c => simp [relWireOk, relatedResolved] at hv
  | vobj kvs =>
      have hw : relWireOk (Val.vobj kvs) = true := by
        rcases hv with h | h
        · exact h
        · simp [relatedResolved] at h
      cases hd : alookup kvs "data" with
      | some d =>
          have hi : isResourceIdentifier d = true := by
            simpa only [relWireOk, hd] using hw
          obtain ⟨dkvs, rfl⟩ : ∃ dk, d = Val.vobj dk := by
            cases d with
            | vobj dk => exact ⟨dk, rfl⟩
            | _ => simp [isResourceIdentifier] at hi
          have hmem : "data" ∈ keys kvs := mem_keys_of_alookup hd
          rw [e3]
          simp only [setRelated, isList, isObject, hasLinks, hasData, getOpt,
            hd, Option.getD, hmem, decide_True, Bool.true_and, Bool.false_or,
            Bool.and_false, Bool.or_false, Bool.not_true, Bool.and_true,
            Bool.false_and, truthy, decide_not, Bool.not_false]
          simp only [reduceIte, bind, Except.bind, apiNew_ident f dkvs hi]
          exact ⟨_, rfl⟩
      | none =>
          have hl : "links" ∈ keys kvs := by
            simpa only [relWireOk, hd, decide_eq_true_eq] using hw
          have hnd : "data" ∉ keys kvs := by
            intro hm
            obtain ⟨w, hw2⟩ := alookup_isSome_of_mem_keys hm
            rw [hw2] at hd
            cases hd
          rw [e3]
          simp only [setRelated, isList, isObject, hasLinks, hasData, getOpt,
            hd, Option.getD, hl, hnd, decide_True, decide_False,
            Bool.true_and, Bool.false_or, Bool.and_false, Bool.or_false,
            Bool.not_true, Bool.and_true, Bool.false_and, truthy, decide_not,
            Bool.not_false, Bool.or_true, Bool.true_or]
          simp only [reduceIte]
          exact ⟨_, rfl⟩

/-- Folding `_setRelated` over a map of settable relationship values
succeeds, preserves the other resource fields, and leaves the
relationship keys as the union of the old keys and the map keys. -/
theorem foldSetRelated_ok (f : Nat) (incMap : List (String × RState))
    (l : List (String × Val)) :
    ∀ (st0 : RState),
      (∀ p ∈ l, relWireOk p.2 = true ∨ relatedResolved p.2 = true) →
      ∃ st2,
        l.foldlM (fun acc p => setRelated (f + 3) acc p.1 p.2 incMap) st0 =
          .ok st2 ∧
        st2.type = st0.type ∧ st2.id = st0.id ∧
        st2.attributes = st0.attributes ∧ st2.links = st0.links ∧
        st2.redirect = st0.redirect ∧
        ∀ k, k ∈ keys st2.relationships ↔
          (k ∈ keys st0.relationships ∨ k ∈ keys l) := by
  induction l with
  | nil =>
      intro st0 _
      exact ⟨st0, rfl, rfl, rfl, rfl, rfl, rfl, fun k => by simp [keys]⟩
  | cons p rest ih =>
      intro st0 hall
      obtain ⟨st1, h1⟩ := setRelated_settable_ok f st0 p.1 p.2 incMap
        (hall p (List.mem_cons_self p rest))
      obtain ⟨hty, hid, hattr, hlinks, hred, ⟨rv, hrels⟩, -⟩ :=
        setRelated_ok_shape _ _ _ _ _ _ h1
      obtain ⟨st2, h2, hty2, hid2, hattr2, hlinks2, hred2, hkeys2⟩ :=
        ih st1 (fun q hq => hall q (List.mem_cons_of_mem p hq))
      refine ⟨st2, ?_, hty2.trans hty, hid2.trans hid, hattr2.trans hattr,
        hlinks2.trans hlinks, hred2.trans hred, ?_⟩
      · rw [List.foldlM_cons, h1]
        exact h2
      · intro k
        rw [hkeys2 k, hrels, mem_keys_aset, keys_cons]
        simp only [List.mem_cons]
        tauto

end JApi

namespace JApi

/-- C3, counterexample: the 3xx reload path re-feeds the merged
`{...relationships, ...related}` map through `_overwrite`, but a resolved
plural relationship stores a `Collection` in `related`, which
`_setRelated` cannot re-consume: for a resource constructed with one
plural relationship, a 302 response with a `Location` header makes
`reload` throw `Cannot set relationship children` instead of preserving
the maps and recording the redirect. -/
theorem c3_redirect_reload_counterexample :
    isRedirect (Response.mk (some 302)
      [("Location", Val.vstr "http://redirect.com")] .vnull) = true ∧
    (construct 8 (.vstr "parents")
        (.vobj [("id", .vstr "1"),
          ("children", .vlist [Val.vobj
            [("type", .vstr "children"), ("id", .vstr "2")]])])).bind
      (fun st => reload 8 st none (Response.mk (some 302)
        [("Location", Val.vstr "http://redirect.com")] .vnull)) =
    .error (.thrown "Cannot set relationship children") := ⟨rfl, rfl⟩

end JApi

namespace JApi

/-- C3, amended: for a resource whose relationship entries are still in
wire shape (null, an identifier-carrying `data` object, or a links-only
object), whose resolved related values are all null or singular
`Resource`s (no plural `Collection`s), whose related keys are covered by
the relationship keys, and whose id is defined, a 3xx reload response
issues the GET against the item url, preserves attributes, id, type,
links and the set of relationship keys, sets only `redirect` to the
`Location` header, and a subsequent `follow()` issues a plain GET against
exactly that target. -/
theorem c3_redirect_reload (f : Nat) (st : RState)
    (includeArg : Option (List String)) (resp : Response)
    (hrels : ∀ p ∈ st.relationships, relWireOk p.2 = true)
    (hrelated : ∀ p ∈ st.related, relatedResolved p.2 = true)
    (hsub : ∀ k ∈ keys st.related, k ∈ keys st.relationships)
    (hid : isUndef st.id = false)
    (h3xx : isRedirect resp = true) :
    ∃ st2,
      reload (f + 4) st includeArg resp =
        .ok (Request.mk "get" (getItemUrl st) (includeParams includeArg)
          .vnull, st2) ∧
      st2.attributes = st.attributes ∧ st2.id = st.id ∧
      st2.type = st.type ∧ st2.links = st.links ∧
      st2.redirect = (alookup resp.headers "Location").getD .vundef ∧
      (∀ k, k ∈ keys st2.relationships ↔ k ∈ keys st.relationships) ∧
      follow st2 = .ok (Request.mk "get"
        ((alookup resp.headers "Location").getD .vundef) .vnull .vnull) := by
  have hL : truthy ((alookup resp.headers "Location").getD .vundef) = true := by
    simp only [isRedirect, Bool.and_eq_true] at h3xx
    exact h3xx.2
  have hLund : isUndef ((alookup resp.headers "Location").getD Val.vundef) = false := by
    revert hL
    cases (alookup resp.headers "Location").getD Val.vundef <;>
      simp [truthy, isUndef]
  have hsettable : ∀ p ∈ amerge st.relationships st.related,
      relWireOk p.2 = true ∨ relatedResolved p.2 = true := by
    intro p hp
    rcases mem_amerge_elim hp with h | h
    · exact Or.inl (hrels p h)
    · exact Or.inr (hrelated p h)
  obtain ⟨st2, hfold, hty2, hid2, hattr2, hlinks2, hred2, hkeys2⟩ :=
    foldSetRelated_ok f [] (amerge st.relationships st.related)
      (RState.mk st.type st.id st.attributes
        (st.relationships.filter
          (fun p => p.1 ∈ keys (amerge st.relationships st.related)))
        (st.related.filter
          (fun p => p.1 ∈ keys (amerge st.relationships st.related)))
        st.links ((alookup resp.headers "Location").getD .vundef))
      hsettable
  have e4 : f + 4 = Nat.succ (f + 3) := rfl
  have hre : reload (f + 4) st includeArg resp =
      ((amerge st.relationships st.related).foldlM
        (fun acc p => setRelated (f + 3) acc p.1 p.2 [])
        (RState.mk st.type st.id st.attributes
          (st.relationships.filter
            (fun p => p.1 ∈ keys (amerge st.relationships st.related)))
          (st.related.filter
            (fun p => p.1 ∈ keys (amerge st.relationships st.related)))
          st.links ((alookup resp.headers "Location").getD .vundef))).map
        (fun st3 => (Request.mk "get" (getItemUrl st)
          (includeParams includeArg) .vnull, st3)) := by
    rw [e4]
    simp only [reload, h3xx, if_true, overwrite]
    simp only [destr, objDestr, listDestr, alookup, String.reduceEq, reduceIte,
      hid, hLund, truthy, Bool.false_and, Bool.and_eq_true, overwriteKeys,
      List.filter_cons, List.filter_nil, List.foldl_nil, List.foldlM_nil,
      bind, Except.bind, decide_True, decide_False, decide_not,
      List.mem_cons, List.mem_singleton, List.not_mem_nil]
    simp only [or_true, true_or, or_false, false_or, decide_True,
      decide_False, Bool.not_true, Bool.not_false, Bool.false_eq_true,
      reduceIte, if_true, if_false, pure, Except.pure, List.foldl_cons,
      List.foldl_nil, List.filter_nil]
  refine ⟨st2, ?_, hattr2, hid2, hty2, hlinks2, hred2, ?_, ?_⟩
  · rw [hre, hfold]
    rfl
  · intro k
    rw [hkeys2 k]
    constructor
    · rintro (hk | hk)
      · simp only [RState.relationships, keys, List.mem_map] at hk
        obtain ⟨p, hp, rfl⟩ := hk
        rw [List.mem_filter] at hp
        exact List.mem_map_of_mem Prod.fst hp.1
      · rcases (mem_keys_amerge _ _ _).mp hk with h | h
        · exact h
        · exact hsub k h
    · intro hk
      exact Or.inr ((mem_keys_amerge _ _ _).mpr (Or.inl hk))
  · rw [follow, hred2]
    simp only [RState.redirect, hL, if_true]

end JApi

namespace JApi

/-- Witness for the amended C3 theorem: a concrete resource with one
links-only (wire-shaped) relationship, an empty related map and a defined
id, reloaded against a 302 response carrying a Location header. -/
theorem c3_redirect_reload_witness :
    ∃ st2,
      reload (0 + 4)
        (RState.mk (.vstr "parents") (.vstr "1") [("name", .vstr "x")]
          [("children", Val.vobj [("links", Val.vobj
            [("related", Val.vstr "/children-of-1")])])]
          [] [("self", .vstr "/parents/1")] .vnull) none
        (Response.mk (some 302)
          [("Location", Val.vstr "http://redirect.com")] .vnull) =
        .ok (Request.mk "get"
          (getItemUrl (RState.mk (.vstr "parents") (.vstr "1")
            [("name", .vstr "x")]
            [("children", Val.vobj [("links", Val.vobj
              [("related", Val.vstr "/children-of-1")])])]
            [] [("self", .vstr "/parents/1")] .vnull))
          (includeParams none) .vnull, st2) ∧
      st2.attributes = [("name", Val.vstr "x")] ∧
      st2.id = Val.vstr "1" ∧
      st2.redirect = Val.vstr "http://redirect.com" ∧
      follow st2 = .ok (Request.mk "get"
        (Val.vstr "http://redirect.com") .vnull .vnull) := by
  obtain ⟨st2, h1, hattr, hid2, hty, hlk, hred, hkeys, hfol⟩ :=
    c3_redirect_reload 0
      (RState.mk (.vstr "parents") (.vstr "1") [("name", .vstr "x")]
        [("children", Val.vobj [("links", Val.vobj
          [("related", Val.vstr "/children-of-1")])])]
        [] [("self", .vstr "/parents/1")] .vnull) none
      (Response.mk (some 302)
        [("Location", Val.vstr "http://redirect.com")] .vnull)
      (by decide) (by decide) (by decide) (by decide) (by decide)
  exact ⟨st2, h1, hattr, hid2, hred.trans rfl, hfol⟩

end JApi

namespace JApi

/-- A key of a filtered map filtered on membership in another map's keys
is a key of that other map. -/
theorem keys_filter_mem {α : Type} (A B : List (String × α)) (k : String)
    (hk : k ∈ keys (A.filter (fun p => decide (p.1 ∈ keys B)))) :
    k ∈ keys B := by
  simp only [keys, List.mem_map] at hk
  obtain ⟨p, hp, rfl⟩ := hk
  rw [List.mem_filter] at hp
  have h2 := hp.2
  simp only [decide_eq_true_eq, keys, List.mem_map] at h2
  obtain ⟨a, ha, hfst⟩ := h2
  exact hfst ▸ List.mem_map_of_mem Prod.fst ha

/-- One `_setRelated` step keeps the related keys covered by the
relationship keys. -/
theorem setRelated_covered (g : Nat) (st : RState) (name : String)
    (v : Val) (inc : List (String × RState)) (st2 : RState)
    (h : setRelated g st name v inc = .ok st2)
    (hcov : relKeysCovered st) : relKeysCovered st2 := by
  obtain ⟨-, -, -, -, -, ⟨rv, hrels⟩, hrel⟩ := setRelated_ok_shape _ _ _ _ _ _ h
  intro k hk
  rw [hrels]
  rcases hrel with hsame | ⟨dv, hset⟩
  · rw [hsame] at hk
    exact (mem_keys_aset _ _ _ _).mpr (Or.inl (hcov k hk))
  · rw [hset] at hk
    rcases (mem_keys_aset _ _ _ _).mp hk with h2 | h2
    · exact (mem_keys_aset _ _ _ _).mpr (Or.inl (hcov k h2))
    · exact (mem_keys_aset _ _ _ _).mpr (Or.inr h2)

/-- Folding `_setRelated` over a map ends with the related keys covered,
provided every starting related key is an old relationship key or a key
of the folded map. -/
theorem foldSetRelated_covered (g : Nat) (inc : List (String × RState)) :
    ∀ (l : List (String × Val)) (st0 st2 : RState),
      l.foldlM (fun acc p => setRelated g acc p.1 p.2 inc) st0 = .ok st2 →
      (∀ k ∈ keys st0.related, k ∈ keys st0.relationships ∨ k ∈ keys l) →
      relKeysCovered st2 := by
  intro l
  induction l with
  | nil =>
      intro st0 st2 h hsub
      simp only [List.foldlM_nil] at h
      cases h
      intro k hk
      rcases hsub k hk with h2 | h2
      · exact h2
      · simp [keys] at h2
  | cons p rest ih =>
      intro st0 st2 h hsub
      rw [List.foldlM_cons] at h
      simp only [bind, Except.bind] at h
      cases h1 : setRelated g st0 p.1 p.2 inc with
      | error e => rw [h1] at h; exact Except.noConfusion h
      | ok st1 =>
          rw [h1] at h
          obtain ⟨-, -, -, -, -, ⟨rv, hrels⟩, hrel⟩ :=
            setRelated_ok_shape _ _ _ _ _ _ h1
          refine ih st1 st2 h ?_
          intro k hk
          have hsup : ∀ k2, k2 ∈ keys st0.relationships ∨ k2 = p.1 →
              k2 ∈ keys st1.relationships := by
            intro k2 hk2
            rw [hrels]
            exact (mem_keys_aset _ _ _ _).mpr hk2
          have hstep : k ∈ keys st0.related ∨ k = p.1 := by
            rcases hrel with hsame | ⟨dv, hset⟩
            · rw [hsame] at hk; exact Or.inl hk
            · rw [hset] at hk; exact (mem_keys_aset _ _ _ _).mp hk
          rcases hstep with h2 | h2
          · rcases hsub k h2 with h3 | h3
            · exact Or.inl (hsup k (Or.inl h3))
            · rw [keys_cons] at h3
              rcases List.mem_cons.mp h3 with h4 | h4
              · exact Or.inl (hsup k (Or.inr h4))
              · exact Or.inr h4
          · exact Or.inl (hsup k (Or.inr h2))

end JApi

namespace JApi

/-- Every successful `_overwrite` leaves the related keys covered by the
relationship keys, whatever the starting state: the old maps are filtered
down to the declared keys of the incoming relationships map, and the
`_setRelated` fold then writes a relationships entry for each of them. -/
theorem overwrite_covered (f : Nat) (st : RState) (v : Val) (st2 : RState)
    (h : overwrite f st v = .ok st2) : relKeysCovered st2 := by
  cases f with
  | zero => exact Except.noConfusion h
  | succ g =>
      simp only [overwrite, bind, Except.bind] at h
      repeat' split at h
      all_goals first
        | exact Except.noConfusion h
        | exact foldSetRelated_covered g _ _ _ _ h
            (fun k hk => Or.inr (keys_filter_mem _ _ _ hk))

end JApi

namespace JApi

/-- `set(key, value)` keeps the related keys covered by the relationship
keys. -/
theorem rset_covered (f : Nat) (st : RState) (key : String) (value : Val)
    (st2 : RState) (h : rset f st key value = .ok st2)
    (hcov : relKeysCovered st) : relKeysCovered st2 := by
  simp only [rset, bind, Except.bind] at h
  by_cases hk : key ∈ keys st.relationships
  · rw [if_pos hk] at h
    cases h1 : setRelated f st key value [] with
    | error e => rw [h1] at h; exact Except.noConfusion h
    | ok st1 =>
        rw [h1] at h
        dsimp only at h
        repeat' split at h
        all_goals try exact Except.noConfusion h
        cases h
        intro k hk2
        exact (mem_keys_aset _ _ _ _).mpr
          (Or.inl (setRelated_covered _ _ _ _ _ _ h1 hcov k hk2))
  · rw [if_neg hk] at h
    cases h
    intro k hk2
    exact hcov k hk2

/-- `change(field, value)` keeps the related keys covered by the
relationship keys. -/
theorem change_covered (f : Nat) (st : RState) (field : String)
    (value : Val) (req : Request) (st2 : RState)
    (h : change f st field value = .ok (req, st2))
    (hcov : relKeysCovered st) : relKeysCovered st2 := by
  simp only [change, bind, Except.bind] at h
  by_cases hf : field ∉ keys st.relationships
  · rw [if_pos hf] at h
    exact Except.noConfusion h
  · rw [if_neg hf] at h
    repeat' split at h
    all_goals try exact Except.noConfusion h
    all_goals cases h
    all_goals intro k hk
    all_goals first
      | exact (mem_keys_aset _ _ _ _).mpr (Or.inl (hcov k hk))
      | (rcases (mem_keys_aset _ _ _ _).mp hk with h2 | h2
         · exact (mem_keys_aset _ _ _ _).mpr (Or.inl (hcov k h2))
         · exact (mem_keys_aset _ _ _ _).mpr (Or.inr h2))

/-- Fetching a relationship keeps the related keys covered by the
relationship keys (the guard refuses undeclared names). -/
theorem fetchRel_covered (f : Nat) (st : RState) (name : String)
    (force : Bool) (resp : Response) (out : FetchOut) (st2 : RState)
    (h : fetchRel f st name force resp = .ok (out, st2))
    (hcov : relKeysCovered st) : relKeysCovered st2 := by
  simp only [fetchRel, bind, Except.bind] at h
  by_cases hg : name ∉ keys st.relationships
  · rw [if_pos hg] at h
    exact Except.noConfusion h
  · rw [if_neg hg] at h
    repeat' split at h
    all_goals try exact Except.noConfusion h
    all_goals cases h
    all_goals intro k hk
    all_goals first
      | exact hcov k hk
      | (rcases (mem_keys_aset _ _ _ _).mp hk with h2 | h2
         · exact hcov k h2
         · subst h2
           exact not_not.mp hg)

/-- `_postSave` ends in `_overwrite`, so it leaves the related keys
covered whatever the prior state. -/
theorem postSave_covered (f : Nat) (st : RState) (resp : Response)
    (st2 : RState) (h : postSave f st resp = .ok st2) :
    relKeysCovered st2 := by
  simp only [postSave, bind, Except.bind] at h
  repeat' split at h
  all_goals first
    | exact Except.noConfusion h
    | exact overwrite_covered _ _ _ _ h

/-- `_saveExisting` re-seeds through `_postSave`. -/
theorem saveExisting_covered (f : Nat) (st : RState) (fields : List String)
    (resp : Response) (req : Request) (st2 : RState)
    (h : saveExisting f st fields resp = .ok (req, st2)) :
    relKeysCovered st2 := by
  simp only [saveExisting, bind, Except.bind] at h
  repeat' split at h
  all_goals try exact Except.noConfusion h
  cases h
  exact postSave_covered f st resp _ (by assumption)

/-- `_saveNew` re-seeds through `_postSave`. -/
theorem saveNew_covered (f : Nat) (st : RState) (fields : List String)
    (resp : Response) (req : Request) (st2 : RState)
    (h : saveNew f st fields resp = .ok (req, st2)) :
    relKeysCovered st2 := by
  simp only [saveNew, bind, Except.bind] at h
  repeat' split at h
  all_goals try exact Except.noConfusion h
  cases h
  exact postSave_covered f st resp _ (by assumption)

/-- `save` routes to `_saveExisting` or `_saveNew`. -/
theorem save_covered (f : Nat) (st : RState) (a b : Val) (resp : Response)
    (req : Request) (st2 : RState)
    (h : save f st a b resp = .ok (req, st2)) : relKeysCovered st2 := by
  simp only [save, bind, Except.bind] at h
  repeat' split at h
  all_goals first
    | exact Except.noConfusion h
    | exact saveExisting_covered _ _ _ _ _ _ h
    | exact saveNew_covered _ _ _ _ _ _ h

end JApi

namespace JApi

/-- C1, counterexample: the two maps are not kept in lock-step.  A
links-only relationship (`{links: {related: url}}`) is classified as a
relationship and written into `relationships`, but the plural links-only
branch of `_setRelated` leaves `related` untouched, so right after
construction `keys(relationships) = [children]` while
`keys(related) = []`. -/
theorem c1_related_keys_lockstep_counterexample :
    ∃ st, construct 6 (.vstr "parents")
        (.vobj [("children", .vobj [("links", .vobj
          [("related", .vstr "/children-url")])])]) = .ok st ∧
      keys st.relationships = ["children"] ∧ keys st.related = [] :=
  ⟨_, rfl, rfl, rfl⟩

/-- C1, amended: only one inclusion of the lock-step claim holds, and it
holds across every completed operation that touches relationship state:
every key of `related` is a key of `relationships` after construction,
`_overwrite`, `set`, `change`, a relationship fetch, `_postSave` and
`save` (for the state-transforming operations, provided the input state
already satisfied it; `_overwrite` and the save family re-establish it
unconditionally). -/
theorem c1_related_keys_lockstep (f : Nat) :
    (∀ (ty input : Val) (st2 : RState),
        construct f ty input = .ok st2 → relKeysCovered st2) ∧
    (∀ (st : RState) (v : Val) (st2 : RState),
        overwrite f st v = .ok st2 → relKeysCovered st2) ∧
    (∀ (st : RState) (key : String) (value : Val) (st2 : RState),
        relKeysCovered st → rset f st key value = .ok st2 →
          relKeysCovered st2) ∧
    (∀ (st : RState) (field : String) (value : Val) (req : Request)
        (st2 : RState),
        relKeysCovered st → change f st field value = .ok (req, st2) →
          relKeysCovered st2) ∧
    (∀ (st : RState) (name : String) (force : Bool) (resp : Response)
        (out : FetchOut) (st2 : RState),
        relKeysCovered st → fetchRel f st name force resp = .ok (out, st2) →
          relKeysCovered st2) ∧
    (∀ (st : RState) (resp : Response) (st2 : RState),
        postSave f st resp = .ok st2 → relKeysCovered st2) ∧
    (∀ (st : RState) (a b : Val) (resp : Response) (req : Request)
        (st2 : RState),
        save f st a b resp = .ok (req, st2) → relKeysCovered st2) :=
  ⟨fun ty input st2 h => overwrite_covered f (emptyR ty) input st2 h,
   fun st v st2 h => overwrite_covered f st v st2 h,
   fun st key value st2 hc h => rset_covered f st key value st2 h hc,
   fun st field value req st2 hc h =>
     change_covered f st field value req st2 h hc,
   fun st name force resp out st2 hc h =>
     fetchRel_covered f st name force resp out st2 h hc,
   fun st resp st2 h => postSave_covered f st resp st2 h,
   fun st a b resp req st2 h => save_covered f st a b resp req st2 h⟩

/-- Witness for the amended C1 theorem: the construction of the
counterexample resource itself satisfies the surviving inclusion. -/
theorem c1_related_keys_lockstep_witness :
    ∃ st, construct 6 (.vstr "parents")
        (.vobj [("children", .vobj [("links", .vobj
          [("related", .vstr "/children-url")])])]) = .ok st ∧
      relKeysCovered st := by
  have h : construct 6 (.vstr "parents")
      (.vobj [("children", .vobj [("links", .vobj
        [("related", .vstr "/children-url")])])]) =
      .ok (RState.mk (.vstr "parents") .vnull []
        [("children", Val.vobj [("links", Val.vobj
          [("related", Val.vstr "/children-url")])])] [] [] .vnull) := rfl
  exact ⟨_, h, (c1_related_keys_lockstep 6).1 _ _ _ h⟩

end JApi
